import Mathlib

/-!
# Verification of the modular-BERT heterogeneous attention and weight-transfer engine

A shallow embedding, in Lean 4, of the core of
`src/transformers/src/transformers/models/bert/modeling_modular_bert.py`
(JHA-Lab/txf_design-space): the per-layer attention-block construction
checks, the heterogeneous attention score computation, the key/value cache
threading of decoder self-attention, and the cross-architecture parameter
transfer engine `BertModelModular.load_model_from_source` (both its
homogeneous and heterogeneous branches).

Modelling conventions:
* tensors are rational-valued index functions (`Vec`, `Mat`, `Ten3`) or,
  where dynamic shapes matter, a pair of a shape and a flat index function
  (`PTensor`);
* the encoded head strings `"<attn>_<sim>_<size>"` of
  `config.attention_heads_list` are represented pre-split as `HeadSpec`
  records (the Python code splits them with `split('_')` at use sites);
* `sklearn.random_projection.GaussianRandomProjection(k).fit_transform`
  draws a random matrix, so it is passed in as an oracle argument
  `rpFit : Nat → Mat → Mat` (first argument: the fitted output dimension);
* PyTorch `Parameter` objects that the code re-binds with `setattr`
  (the bilinear `W{i}` matrices) are modelled as references into an
  explicit heap `WHeap`, so that object aliasing is observable; all other
  assignments (`load_state_dict`, tensor slice assignment) copy values;
* Python exceptions are values of `PyExc`; an exception aborts the
  remaining transfer steps but keeps the in-place mutations already made;
* a zero-offset tensor slice handed to the random-projection oracle is
  represented by the underlying index function (pointwise equal on the
  sliced region); offset slices are re-indexed explicitly.
-/

namespace ModularBert

/-- A 1-dimensional rational tensor, as an index function. -/
def Vec : Type := Nat → ℚ

/-- A 2-dimensional rational tensor. -/
def Mat : Type := Nat → Nat → ℚ

/-- A 3-dimensional rational tensor. -/
def Ten3 : Type := Nat → Nat → Nat → ℚ

/-- A 4-dimensional rational tensor. -/
def Ten4 : Type := Nat → Nat → Nat → Nat → ℚ

instance : Inhabited Vec := ⟨fun _ => 0⟩
instance : Inhabited Mat := ⟨fun _ _ => 0⟩
instance : Inhabited Ten3 := ⟨fun _ _ _ => 0⟩
instance : Inhabited Ten4 := ⟨fun _ _ _ _ => 0⟩

/-- `dst[r0:r1] = src[r0:r1]` on a 1-d tensor. -/
def sliceAssign1 (r0 r1 : Nat) (dst src : Vec) : Vec :=
  fun i => if r0 ≤ i ∧ i < r1 then src i else dst i

/-- `dst[:l] = src[:l]` on a 1-d tensor. -/
def sliceLow1 (l : Nat) (dst src : Vec) : Vec := sliceAssign1 0 l dst src

/-- `dst[r0:r1, :cl] = src[r0:r1, :cl]` on a 2-d tensor. -/
def sliceAssign2 (r0 r1 cl : Nat) (dst src : Mat) : Mat :=
  fun i j => if (r0 ≤ i ∧ i < r1) ∧ j < cl then src i j else dst i j

/-- `dst[r0:r1, :] = src[r0:r1, :]` on a 2-d tensor (all columns). -/
def sliceRows2 (r0 r1 : Nat) (dst src : Mat) : Mat :=
  fun i j => if r0 ≤ i ∧ i < r1 then src i j else dst i j

/-- `dst[:, c0:c1] = src[:, c0:c1]` on a 2-d tensor (all rows). -/
def sliceCols2 (c0 c1 : Nat) (dst src : Mat) : Mat :=
  fun i j => if c0 ≤ j ∧ j < c1 then src i j else dst i j

/-- `dst[:r, :c] = src[:r, :c]` on a 2-d tensor. -/
def sliceLow2 (r c : Nat) (dst src : Mat) : Mat :=
  fun i j => if i < r ∧ j < c then src i j else dst i j

/-- Matrix transpose (`np.transpose` on a 2-d array). -/
def matTranspose (m : Mat) : Mat := fun i j => m j i

/-! ## Attention-block construction (claim C7)

`BertSelfAttentionModular.__init__` (modeling_modular_bert.py lines
148-174) raises a `ValueError` when the layer's hidden width is not a
multiple of the layer's head count and the config has no `embedding_size`
attribute; otherwise it derives `attention_head_size` with truncating
division and `all_head_size`.

`BertHeteroAttentionModular.__init__` (lines 331-352) parses the per-head
sizes out of the head strings and asserts
`len(set(attention_head_sizes)) == 1`.
-/

/-- The slice of a homogeneous-mode config consumed by
`BertSelfAttentionModular.__init__` for one layer:
`config.hidden_dim_list[layer_id]`, `config.attention_heads_list[layer_id]`
and whether `hasattr(config, "embedding_size")`. -/
structure HomAttnCfg where
  hidden_dim : Nat
  num_heads : Nat
  has_embedding_size : Bool
deriving DecidableEq, Repr

/-- One parsed head descriptor `"<attn>_<sim>_<size>"` of
`config.attention_heads_list[layer_id]` in heterogeneous mode:
`attn ∈ {"sa", "l", "c"}`, `sim` the similarity tag (`"sdp"`, `"wma"`,
`"dft"`, `"dct"`, or a numeric convolution kernel size), and the head
size. -/
structure HeadSpec where
  attn : String
  sim : String
  size : Nat
deriving DecidableEq, Repr

instance : Inhabited HeadSpec := ⟨⟨"sa", "sdp", 0⟩⟩

/-- `BertSelfAttentionModular.__init__` shape check and derived sizes
(lines 151-160): fails iff `hidden_dim % num_heads != 0` and no
`embedding_size` override is present; on success returns
`(attention_head_size, all_head_size)` where
`attention_head_size = int(hidden / heads)` (truncating). -/
def bertSelfAttentionInit (c : HomAttnCfg) : Except String (Nat × Nat) :=
  if c.hidden_dim % c.num_heads ≠ 0 ∧ c.has_embedding_size = false then
    .error "ValueError: hidden size is not a multiple of the number of attention heads"
  else
    let attention_head_size := c.hidden_dim / c.num_heads
    .ok (attention_head_size, c.num_heads * attention_head_size)

/-- `BertHeteroAttentionModular.__init__` shape check and derived sizes
(lines 342-352): asserts `len(set(attention_head_sizes)) == 1` (the Python
`set` of the list of per-head sizes is modelled with `List.toFinset`); on
success returns `(attention_head_size, all_head_size)`. -/
def bertHeteroAttentionInit (heads : List HeadSpec) : Except String (Nat × Nat) :=
  let attention_head_sizes := heads.map (·.size)
  if attention_head_sizes.toFinset.card = 1 then
    let attention_head_size := attention_head_sizes.headD 0
    .ok (attention_head_size, heads.length * attention_head_size)
  else
    .error "AssertionError: all attention heads should have the same size"

/-! ## Shaped tensors and the heterogeneous score computation (claim C9)

`BertHeteroAttentionModular.forward` (lines 392-467) computes, per head,
a raw attention-score tensor and collects them in `attention_scores_list`
before `torch.stack(attention_scores_list, 1)`; relative-position biasing
and the additive attention mask are applied only after the stack.  To talk
about tensor shapes we use a shape-carrying representation. -/

/-- A tensor as a dynamic shape plus a flat multi-index function
(the index function is only meaningful on indices inside the shape). -/
structure PTensor where
  shape : List Nat
  data : List Nat → ℚ

instance : Inhabited PTensor := ⟨⟨[], fun _ => 0⟩⟩

/-- `torch.zeros(*shp)`. -/
def ptZeros (shp : List Nat) : PTensor := ⟨shp, fun _ => 0⟩

/-- `x[:, h, :, :]` for a 4-d tensor `x`. -/
def headSlice (x : PTensor) (h : Nat) : PTensor :=
  ⟨[x.shape.getD 0 0, x.shape.getD 2 0, x.shape.getD 3 0],
   fun idx => x.data [idx.getD 0 0, h, idx.getD 1 0, idx.getD 2 0]⟩

/-- `x.transpose(-1, -2)` for a 3-d tensor `x`. -/
def transposeLast2 (x : PTensor) : PTensor :=
  ⟨[x.shape.getD 0 0, x.shape.getD 2 0, x.shape.getD 1 0],
   fun idx => x.data [idx.getD 0 0, idx.getD 2 0, idx.getD 1 0]⟩

/-- `torch.matmul` of batched 3-d tensors `[B, M, K] x [B, K, N]`. -/
def matmul3 (a b : PTensor) : PTensor :=
  ⟨[a.shape.getD 0 0, a.shape.getD 1 0, b.shape.getD 2 0],
   fun idx => ∑ k in Finset.range (a.shape.getD 2 0),
     a.data [idx.getD 0 0, idx.getD 1 0, k] * b.data [idx.getD 0 0, k, idx.getD 2 0]⟩

/-- `torch.matmul` of a batched 3-d tensor `[B, M, K]` with a plain
`[K, K]` matrix (the learned bilinear `W`), broadcast over the batch. -/
def matmulMat (a : PTensor) (w : Mat) : PTensor :=
  ⟨a.shape,
   fun idx => ∑ k in Finset.range (a.shape.getD 2 0),
     a.data [idx.getD 0 0, idx.getD 1 0, k] * w k (idx.getD 2 0)⟩

/-- `attention_scores_size = query_layer.size()[:-1] + (query_layer.size()[-2],)`
(line 442). -/
def attentionScoresSize (q : PTensor) : List Nat :=
  q.shape.take 3 ++ [q.shape.getD 2 0]

/-- `torch.stack(ts, 1)`. -/
def stackDim1 (ts : List PTensor) : PTensor :=
  ⟨(ts.headD default).shape.take 1 ++ [ts.length] ++ (ts.headD default).shape.drop 1,
   fun idx => (ts.getD (idx.getD 1 0) default).data (idx.eraseIdx 1)⟩

/-- The per-head loop of `BertHeteroAttentionModular.forward` building
`attention_scores_list` (lines 445-466), recursing over the head
descriptors with the running head index; the list `ws` holds the bilinear
matrices `W0, W1, ...` still to be consumed (`wma_count` in the source).
A `"sa"` head with `"sdp"` similarity appends
`torch.matmul(q[:, h, :, :], k[:, h, :, :].transpose(-1, -2))`; a `"sa"`
head with `"wma"` similarity inserts its `W`; an `"l"` or `"c"` head
appends `torch.zeros(*[s for i, s in enumerate(attention_scores_size) if i != 1])`.
Head tags outside these cases append nothing, as in the source. -/
def attentionScoresListGo (q k : PTensor) :
    List HeadSpec → Nat → List Mat → List PTensor
  | [], _, _ => []
  | hd :: rest, h, ws =>
    if hd.attn = "sa" then
      if hd.sim = "sdp" then
        matmul3 (headSlice q h) (transposeLast2 (headSlice k h)) ::
          attentionScoresListGo q k rest (h + 1) ws
      else if hd.sim = "wma" then
        matmul3 (matmulMat (headSlice q h) (ws.headD default)) (transposeLast2 (headSlice k h)) ::
          attentionScoresListGo q k rest (h + 1) ws.tail
      else
        attentionScoresListGo q k rest (h + 1) ws
    else if hd.attn = "l" ∨ hd.attn = "c" then
      ptZeros ((attentionScoresSize q).eraseIdx 1) ::
        attentionScoresListGo q k rest (h + 1) ws
    else
      attentionScoresListGo q k rest (h + 1) ws

/-- `attention_scores_list` of `BertHeteroAttentionModular.forward` for a
layer with head descriptors `heads`, bilinear parameters `ws` and the
already-transposed query/key layers `q, k : [B, H, S, D]`. -/
def attentionScoresList (heads : List HeadSpec) (ws : List Mat) (q k : PTensor) :
    List PTensor :=
  attentionScoresListGo q k heads 0 ws

/-- `attention_scores = torch.stack(attention_scores_list, 1)` (line 467). -/
def heteroAttentionScores (heads : List HeadSpec) (ws : List Mat) (q k : PTensor) :
    PTensor :=
  stackDim1 (attentionScoresList heads ws q k)

/-- A head descriptor the heterogeneous forward pass recognises:
self-attention heads carry `"sdp"` or `"wma"` similarity, and spectral
(`"l"`) and convolutional (`"c"`) heads are the only other kinds. -/
def WfHead (hd : HeadSpec) : Prop :=
  (hd.attn = "sa" ∧ (hd.sim = "sdp" ∨ hd.sim = "wma")) ∨ hd.attn = "l" ∨ hd.attn = "c"

instance (hd : HeadSpec) : Decidable (WfHead hd) := by
  unfold WfHead; infer_instance

/-! ## Decoder self-attention key/value cache (claim C10)

`BertSelfAttentionModular.forward` (lines 181-227).  The key/value
computation dispatches on cross-attention and on the presence of a cache
tuple `past_key_value`; in the decoder self-attention case with a cache it
concatenates the fresh key/value projections onto the cached ones along
`dim=2` and, when `is_decoder`, re-exports `(key_layer, value_layer)` as
the new cache.  Index-function tensors carry no shape, so the cached
sequence length (`past_key_value[0].shape[2]`) accompanies the cache
explicitly. -/

/-- `nn.Linear(in_dim, out).forward`: `x @ W^T + b` pointwise over the
leading two indices of a 3-d input. -/
def nnLinear (in_dim : Nat) (w : Mat) (bias : Vec) (x : Ten3) : Ten3 :=
  fun b s o => (∑ i in Finset.range in_dim, x b s i * w o i) + bias o

/-- `transpose_for_scores` (lines 176-179): view the last axis as
`(num_heads, head_size)` and permute to `[B, H, S, D]`. -/
def transpose_for_scores (attention_head_size : Nat) (x : Ten3) : Ten4 :=
  fun b h s d => x b s (h * attention_head_size + d)

/-- `torch.cat([past, new], dim=2)` for 4-d tensors, where the first
operand extends to `past_len` along axis 2. -/
def catDim2 (past_len : Nat) (past new : Ten4) : Ten4 :=
  fun b h s d => if s < past_len then past b h s d else new b h (s - past_len) d

/-- The parameters and flags of one `BertSelfAttentionModular` instance
that its key/value computation reads. -/
structure SelfAttnParams where
  num_attention_heads : Nat
  attention_head_size : Nat
  hidden_size : Nat
  queryW : Mat
  queryB : Vec
  keyW : Mat
  keyB : Vec
  valueW : Mat
  valueB : Vec
  is_decoder : Bool

/-- A cached key/value tuple together with its sequence length along
axis 2. -/
structure KvCache where
  len : Nat
  key : Ten4
  value : Ten4

/-- The key/value part of `BertSelfAttentionModular.forward`
(lines 192-227): returns `(key_layer, value_layer, past_key_value)` where
the last component is the cache the decoder re-exports (`None` when
`is_decoder` is false). -/
def selfAttnKeyValue (p : SelfAttnParams) (hidden_states : Ten3)
    (encoder_hidden_states : Option Ten3) (past_key_value : Option KvCache) :
    Ten4 × Ten4 × Option (Ten4 × Ten4) :=
  let proj := fun (w : Mat) (bias : Vec) (x : Ten3) =>
    transpose_for_scores p.attention_head_size (nnLinear p.hidden_size w bias x)
  let kv : Ten4 × Ten4 :=
    match encoder_hidden_states, past_key_value with
    | some _, some pkv => (pkv.key, pkv.value)
    | some ehs, none => (proj p.keyW p.keyB ehs, proj p.valueW p.valueB ehs)
    | none, some pkv =>
        (catDim2 pkv.len pkv.key (proj p.keyW p.keyB hidden_states),
         catDim2 pkv.len pkv.value (proj p.valueW p.valueB hidden_states))
    | none, none => (proj p.keyW p.keyB hidden_states, proj p.valueW p.valueB hidden_states)
  (kv.1, kv.2, if p.is_decoder then some (kv.1, kv.2) else none)

/-! ## The homogeneous branch of `load_model_from_source` (claims C1, C2)

`BertModelModular.load_model_from_source` (lines 1595-1867).  In the
homogeneous (non-heterogeneous) branch the encoder loop (lines 1840-1865)
only ever moves whole sub-module state dicts with `load_state_dict`, so a
layer's `attention`, `intermediate` and `output` parameter blocks are
modelled as opaque blocks (`Block`); the coverage counters `count`/`total`
use the state-dict entry counts derived below from the module
definitions.  The embedding branch (lines 1608-1636) does operate on
individual tensors, so embeddings are modelled structurally. -/

/-- An opaque parameter block: the full content of one sub-module's state
dict, moved only as a whole by `load_state_dict`. -/
def Block : Type := Nat → ℚ

instance : Inhabited Block := ⟨fun _ => 0⟩

/-- The parameters (and the one persistent buffer) of
`BertEmbeddingsModular` (lines 101-117): three embedding matrices, the
LayerNorm affine pair, and the registered `position_ids` buffer. -/
structure EmbParams where
  word_embeddings : Mat
  position_embeddings : Mat
  token_type_embeddings : Mat
  ln_weight : Vec
  ln_bias : Vec
  position_ids : Vec

/-- `len(BertEmbeddingsModular().state_dict())`: `word_embeddings.weight`,
`position_embeddings.weight`, `token_type_embeddings.weight`,
`LayerNorm.weight`, `LayerNorm.bias` and the `position_ids` buffer. -/
def embSdLen : Nat := 6

/-- The per-layer slice of a homogeneous-mode config:
`attention_type[i]`, `hidden_dim_list[i]`, `attention_heads_list[i]`
(a head count in this mode), `similarity_list[i]`, `ff_dim_list[i]`. -/
structure HomLayerCfg where
  attention_type : String
  hidden_dim : Nat
  attention_heads : Nat
  similarity : String
  ff_dims : List Nat
deriving DecidableEq, Repr

instance : Inhabited HomLayerCfg := ⟨⟨"sa", 0, 0, "sdp", []⟩⟩

/-- A homogeneous-mode config: the per-layer lists plus
`position_embedding_type` (which decides whether the attention modules own
a `distance_embedding`).  `num_hidden_layers` is the length of the
per-layer list. -/
structure HomConfig where
  layers : List HomLayerCfg
  position_embedding_type : String
deriving DecidableEq, Repr

/-- `config.num_hidden_layers`. -/
def HomConfig.numLayers (c : HomConfig) : Nat := c.layers.length

/-- `config.attention_type[i]`. -/
def HomConfig.attnType (c : HomConfig) (i : Nat) : String :=
  ((c.layers.getD i default).attention_type)

/-- `config.hidden_dim_list[i]`. -/
def HomConfig.hiddenDim (c : HomConfig) (i : Nat) : Nat :=
  ((c.layers.getD i default).hidden_dim)

/-- `len(BertAttentionModular(cfg, i).state_dict())`: the self module
(`query/key/value` weight and bias = 6, plus the bilinear `W` when the
layer is a `"sa"` layer — `BertLinearAttentionModular` has its `W`
commented out — plus `distance_embedding.weight` for relative position
embedding types) and the output module (`dense` weight/bias and
`LayerNorm` weight/bias = 4). -/
def attnSdLen (pet : String) (lc : HomLayerCfg) : Nat :=
  6 + (if lc.attention_type = "sa" then 1 else 0) +
    (if pet = "relative_key" ∨ pet = "relative_key_query" then 1 else 0) + 4

/-- `len(BertIntermediateModular(cfg, i).state_dict())`: the `dense`
linear is registered twice (as `dense` and as `sequential.0`), and each of
the `len(ff_dim_list[i])` linear stages of `sequential` contributes a
weight and a bias. -/
def interSdLen (lc : HomLayerCfg) : Nat := 2 + 2 * lc.ff_dims.length

/-- `len(BertOutputModular(cfg, i, last).state_dict())`: `dense`
weight/bias and `LayerNorm` weight/bias, plus `proj_head` weight/bias when
the layer is not last and `hidden_dim_list[i] != hidden_dim_list[i+1]`
(lines 829-846). -/
def outputSdLen (c : HomConfig) (i : Nat) : Nat :=
  4 + (if i + 1 < c.numLayers ∧ c.hiddenDim i ≠ c.hiddenDim (i + 1) then 2 else 0)

/-- Sum of the per-layer state-dict sizes from layer `i` on, with `r`
layers remaining. -/
def encoderSdLenGo (c : HomConfig) : Nat → Nat → Nat
  | _, 0 => 0
  | i, r + 1 =>
    attnSdLen c.position_embedding_type (c.layers.getD i default) +
      interSdLen (c.layers.getD i default) + outputSdLen c i + encoderSdLenGo c (i + 1) r

/-- `len(BertEncoderModular(cfg).state_dict())` for an encoder-only
homogeneous model: the sum over layers of the three block sizes. -/
def encoderSdLen (c : HomConfig) : Nat := encoderSdLenGo c 0 c.numLayers

/-- One homogeneous encoder layer's parameters, at the granularity the
homogeneous transfer branch moves them: the `attention`, `intermediate`
and `output` sub-module state dicts. -/
structure HomLayerParams where
  attention : Block
  intermediate : Block
  output : Block

instance : Inhabited HomLayerParams := ⟨⟨default, default, default⟩⟩

/-- A homogeneous `BertModelModular` instance: its config, its embedding
parameters and its encoder layers. -/
structure HomModel where
  cfg : HomConfig
  embeddings : EmbParams
  layers : List HomLayerParams

/-- The embedding transfer (lines 1608-1636), shared by both branches.
If the first hidden widths agree the whole embedding state dict is loaded
and `count` grows by its length; otherwise the LayerNorm pair and (per
`transfer_mode`) either the leading column blocks or the
randomly-projected source matrices are written, and `count` stays 0.
`rpFit k` is the oracle for `GaussianRandomProjection(k).fit_transform`.
Returns the new target embeddings and the `count` increment. -/
def transferEmbeddings (mode : String) (rpFit : Nat → Mat → Mat)
    (tHid sHid : Nat) (t s : EmbParams) : EmbParams × Nat :=
  if tHid = sHid then
    (s, embSdLen)
  else
    let lower_hidden_size := min tHid sHid
    let t1 : EmbParams :=
      { t with
        ln_weight := sliceLow1 lower_hidden_size t.ln_weight s.ln_weight
        ln_bias := sliceLow1 lower_hidden_size t.ln_bias s.ln_bias }
    if mode = "OD" then
      ({ t1 with
          word_embeddings :=
            sliceCols2 0 lower_hidden_size t1.word_embeddings s.word_embeddings
          position_embeddings :=
            sliceCols2 0 lower_hidden_size t1.position_embeddings s.position_embeddings
          token_type_embeddings :=
            sliceCols2 0 lower_hidden_size t1.token_type_embeddings s.token_type_embeddings },
        0)
    else
      ({ t1 with
          word_embeddings :=
            sliceCols2 0 lower_hidden_size t1.word_embeddings
              (rpFit lower_hidden_size s.word_embeddings)
          position_embeddings :=
            sliceCols2 0 lower_hidden_size t1.position_embeddings
              (rpFit lower_hidden_size s.position_embeddings)
          token_type_embeddings :=
            sliceCols2 0 lower_hidden_size t1.token_type_embeddings
              (rpFit lower_hidden_size s.token_type_embeddings) },
        0)

/-- The body of one iteration of the homogeneous encoder loop for a layer
whose attention types already matched (lines 1844-1861): gate the
`attention` block on exact hidden-width/head/similarity match, the
`intermediate` block additionally on the feed-forward widths, and the
`output` block additionally on `i + 1 < min(num_layers)` and the next
hidden widths; each load adds the length of the loaded source state dict
to `count`.  `m = min(num_hidden_layers)`. -/
def homTransferLayer (tc sc : HomConfig) (m i : Nat) (tl sl : HomLayerParams) :
    HomLayerParams × Nat :=
  if tc.hiddenDim i = sc.hiddenDim i ∧
      (tc.layers.getD i default).attention_heads = (sc.layers.getD i default).attention_heads ∧
      (tc.layers.getD i default).similarity = (sc.layers.getD i default).similarity then
    let tl1 := { tl with attention := sl.attention }
    let c1 := attnSdLen sc.position_embedding_type (sc.layers.getD i default)
    if (tc.layers.getD i default).ff_dims = (sc.layers.getD i default).ff_dims then
      let tl2 := { tl1 with intermediate := sl.intermediate }
      let c2 := c1 + interSdLen (sc.layers.getD i default)
      if i + 1 < m ∧ tc.hiddenDim (i + 1) = sc.hiddenDim (i + 1) then
        ({ tl2 with output := sl.output }, c2 + outputSdLen sc i)
      else (tl2, c2)
    else (tl1, c1)
  else (tl, 0)

/-- The homogeneous encoder loop (lines 1840-1865): iterate the target
layers in order while `i < m`; a layer whose attention type differs from
the source's breaks out of the loop, leaving it and every later layer
untouched.  Returns the new target layers and the total `count`
increment. -/
def homEncoderGo (tc sc : HomConfig) (sLayers : List HomLayerParams) (m : Nat) :
    Nat → List HomLayerParams → List HomLayerParams × Nat
  | _, [] => ([], 0)
  | i, tl :: rest =>
    if i < m then
      if tc.attnType i = sc.attnType i then
        let r := homTransferLayer tc sc m i tl (sLayers.getD i default)
        let r' := homEncoderGo tc sc sLayers m (i + 1) rest
        (r.1 :: r'.1, r.2 + r'.2)
      else (tl :: rest, 0)
    else (tl :: rest, 0)

/-- `BertModelModular.load_model_from_source` in the homogeneous branch
(lines 1595-1614 and 1839-1867): transfer the embeddings, run the encoder
loop, and return the updated target model together with
`count * 1.0 / total` where
`total = len(self.embeddings.state_dict()) + len(self.encoder.state_dict())`. -/
def load_model_from_source_hom (mode : String) (rpFit : Nat → Mat → Mat)
    (t s : HomModel) : HomModel × ℚ :=
  let total : Nat := embSdLen + encoderSdLen t.cfg
  let e :=
    transferEmbeddings mode rpFit (t.cfg.hiddenDim 0) (s.cfg.hiddenDim 0) t.embeddings s.embeddings
  let m := min t.cfg.numLayers s.cfg.numLayers
  let r := homEncoderGo t.cfg s.cfg s.layers m 0 t.layers
  ({ t with embeddings := e.1, layers := r.1 }, ((e.2 + r.2 : Nat) : ℚ) / (total : ℚ))

/-! ## The heterogeneous branch of `load_model_from_source` (claims C3, C4, C5, C6, C8)

Lines 1639-1838.  This branch works tensor-by-tensor, so the layers are
modelled structurally.  The attribute-named bilinear parameters
`W0, W1, ...` are PyTorch `Parameter` objects that line 1728 re-binds with
`setattr`, so they are modelled as references (`wRefs`) into a heap of
matrices; every other assignment copies values.  The heterogeneous branch
requires a relative `position_embedding_type` (line 1663 reads
`distance_embedding` unconditionally), which is what the models of this
repository use; the embedding assumes it exists. -/

/-- A Python exception value. -/
inductive PyExc
  | nameError (name : String)
  | attributeError (obj attr : String)
  | valueError (msg : String)
  | assertionError (msg : String)
deriving DecidableEq, Repr

/-- The local names `load_model_from_source` has bound when control
reaches line 1735 (parameters and the assignments of lines 1600-1732). -/
def loadModelLocalNames : List String :=
  ["self", "source_model", "debug", "count", "total", "source_config", "i",
   "attention_head_size", "lower_all_head_size", "lower_attention_head_size",
   "lower_hidden_size", "rp", "rp_att", "curr_attn_types", "source_attn_types",
   "curr_sim_types", "source_sim_types", "curr_all_head_size",
   "source_all_head_size", "wma_count", "conv_count", "j", "curr_w", "source_w"]

/-- The module-level names bound by the imports of
modeling_modular_bert.py (lines 20-64) that a bare name inside
`load_model_from_source` could resolve to. -/
def moduleGlobalNames : List String :=
  ["math", "os", "warnings", "dataclass", "Optional", "Tuple", "copy", "torch",
   "nn", "CrossEntropyLoss", "MSELoss", "ACT2FN", "logging", "BertConfig",
   "dct_2d", "BertPreTrainedModel", "BertForPreTrainingOutput",
   "random_projection", "np"]

/-- Python builtins referenced in the file. -/
def pythonBuiltinNames : List String :=
  ["print", "len", "min", "max", "int", "range", "getattr", "setattr",
   "hasattr", "isinstance", "enumerate", "set", "str", "super"]

/-- Attributes of the `torch` module used anywhere in the file
(`torch.from_numpy`, `torch.cat`, ... — there is no `torch.from_nump`). -/
def torchModuleAttrs : List String :=
  ["from_numpy", "cat", "zeros", "stack", "matmul", "multiply", "reshape",
   "softmax", "arange", "FloatTensor", "no_grad", "fft", "functional",
   "tensor", "ones", "einsum", "utils"]

/-- Evaluating a bare name: a `NameError` unless the name is a local, a
module global or a builtin. -/
def evalFreeName (n : String) : Except PyExc Unit :=
  if n ∈ loadModelLocalNames ∨ n ∈ moduleGlobalNames ∨ n ∈ pythonBuiltinNames then
    .ok ()
  else
    .error (.nameError n)

/-- Evaluating `torch.<attr>`: an `AttributeError` unless `torch` defines
the attribute. -/
def getTorchAttr (a : String) : Except PyExc Unit :=
  if a ∈ torchModuleAttrs then .ok () else .error (.attributeError "torch" a)

/-- Parse a decimal digit. -/
def charDigit? (c : Char) : Option Nat :=
  if '0' ≤ c ∧ c ≤ '9' then some (c.toNat - '0'.toNat) else none

/-- Accumulate decimal digits; fails on the first non-digit. -/
def strDigitsAux : List Char → Nat → Option Nat
  | [], n => some n
  | c :: cs, n =>
    match charDigit? c with
    | some d => strDigitsAux cs (n * 10 + d)
    | none => none

/-- The decimal value of a nonempty all-digit string (the strings for
which both Python's `str.isnumeric` holds and `int` parses, for the
kernel-size tags used here). -/
def pyStrToNat? (s : String) : Option Nat :=
  match s.data with
  | [] => none
  | c :: cs => strDigitsAux (c :: cs) 0

/-- Python `int(s)` on a decimal string. -/
def pyInt (s : String) : Except PyExc Nat :=
  match pyStrToNat? s with
  | some n => .ok n
  | none => .error (.valueError ("invalid literal for int: " ++ s))

/-- The heap of bilinear `W` `Parameter` objects; `wRefs` entries index
into it. -/
def WHeap : Type := List Mat

/-- Dereference a `Parameter`. -/
def heapRead (h : WHeap) (r : Nat) : Mat := h.getD r default

/-- In-place mutation of a `Parameter`'s storage. -/
def heapWrite (h : WHeap) (r : Nat) (m : Mat) : WHeap := h.set r m

/-- The parameters of one `SeparableConv1D` (lines 303-326): a depthwise
`[channels, 1, kernel]` weight, a pointwise `[out, in, 1]` weight and a
`[out, 1]` bias. -/
structure SepConvParams where
  depthwise : Ten3
  pointwise : Ten3
  bias : Mat

instance : Inhabited SepConvParams := ⟨⟨default, default, default⟩⟩

/-- The parameters a convolutional head owns in
`BertHeteroAttentionModular` (lines 375-384): `key_conv_attn_layer{k}`,
`conv_kernel_layer{k}` and `conv_out_layer{k}` (`unfold{k}` has no
parameters). -/
structure ConvHeadParams where
  key_conv_attn : SepConvParams
  conv_kernel_weight : Mat
  conv_kernel_bias : Vec
  conv_out_weight : Mat
  conv_out_bias : Vec

instance : Inhabited ConvHeadParams := ⟨⟨default, default, default, default, default⟩⟩

/-- The parameters of one `BertHeteroAttentionModular` instance:
query/key/value projections, the relative-distance embedding, the
attribute-named bilinear `Parameter`s `W0, W1, ...` (as heap references,
in attribute order) and the conv-head parameter groups (in attribute
order). -/
structure HetSelfParams where
  queryW : Mat
  queryB : Vec
  keyW : Mat
  keyB : Vec
  valueW : Mat
  valueB : Vec
  distance_embedding : Mat
  wRefs : List Nat
  convs : List ConvHeadParams

/-- One heterogeneous encoder layer's parameters: the self-attention
block, the attention output block (`BertSelfOutputModular`: dense and
LayerNorm), the feed-forward stages (`intermediate.sequential[2f]`), and
the output block (`BertOutputModular`: dense and LayerNorm). -/
structure HetLayerParams where
  selfAttn : HetSelfParams
  attnOutDenseW : Mat
  attnOutDenseB : Vec
  attnOutLnW : Vec
  attnOutLnB : Vec
  interW : List Mat
  interB : List Vec
  outDenseW : Mat
  outDenseB : Vec
  outLnW : Vec
  outLnB : Vec

instance : Inhabited HetSelfParams :=
  ⟨⟨default, default, default, default, default, default, default, [], []⟩⟩

instance : Inhabited HetLayerParams :=
  ⟨⟨default, default, default, default, default, [], [], default, default,
    default, default⟩⟩

/-- The per-layer slice of a heterogeneous config:
`hidden_dim_list[i]`, the parsed `attention_heads_list[i]`, and
`ff_dim_list[i]`. -/
structure HetLayerCfg where
  hidden_dim : Nat
  heads : List HeadSpec
  ff_dims : List Nat
deriving DecidableEq, Repr

instance : Inhabited HetLayerCfg := ⟨⟨0, [], []⟩⟩

/-- A heterogeneous config (`from_model_dict_hetero = True`). -/
structure HetConfig where
  layers : List HetLayerCfg
deriving DecidableEq, Repr

/-- `config.hidden_dim_list[i]`. -/
def HetConfig.hiddenDim (c : HetConfig) (i : Nat) : Nat :=
  (c.layers.getD i default).hidden_dim

/-- A heterogeneous `BertModelModular` instance. -/
structure HetModel where
  cfg : HetConfig
  emb : EmbParams
  layers : List HetLayerParams

/-- `torch.functional.F.interpolate(src, out_len)` along the last axis of
a 3-d tensor with the default `nearest` mode: output position `k` reads
input position `⌊k * in_len / out_len⌋`. -/
def interpNearest (in_len out_len : Nat) (src : Ten3) : Ten3 :=
  fun a b k => src a b (k * in_len / out_len)

/-- The per-layer context that the head loop of the heterogeneous branch
reads: the transfer mode and `debug` flag, the random-projection oracle,
the (read-only) `W` heap, the sizes computed at lines 1645-1654, the
parsed head lists, the `all_head_size`s of line 1683-1684, and the source
layer's parameters. -/
structure HetHeadCtx where
  mode : String
  debug : Bool
  rpFit : Nat → Mat → Mat
  heap : WHeap
  tHidden : Nat
  sHidden : Nat
  ahs : Nat
  sAhs : Nat
  lah : Nat
  lh : Nat
  tHeads : List HeadSpec
  sHeads : List HeadSpec
  curr_all_head_size : Nat
  source_all_head_size : Nat
  sl : HetLayerParams

/-- `dst[r0:r1, :cl] = src` where `src` is a fresh `(r1-r0) × cl` array
(indexed from zero, e.g. the result of `fit_transform`). -/
def sliceAssignOffset2 (r0 r1 cl : Nat) (dst src : Mat) : Mat :=
  fun r c => if (r0 ≤ r ∧ r < r1) ∧ c < cl then src (r - r0) c else dst r c

/-- Lines 1690-1724, the `if debug:` block: per-head query/key/value bias
and weight slice transfers.  Only executed when `debug` is true. -/
def hetQKVDebugStep (ctx : HetHeadCtx) (j : Nat) (tl : HetLayerParams) : HetLayerParams :=
  if ctx.debug then
    let r0 := j * ctx.ahs
    let r1 := (j + 1) * ctx.ahs
    let sa := tl.selfAttn
    let ssl := ctx.sl.selfAttn
    let sa1 := { sa with
      queryB := sliceAssign1 r0 r1 sa.queryB ssl.queryB
      keyB := sliceAssign1 r0 r1 sa.keyB ssl.keyB
      valueB := sliceAssign1 r0 r1 sa.valueB ssl.valueB }
    let sa2 :=
      if ctx.tHidden ≠ ctx.sHidden then
        if ctx.mode = "OD" then
          { sa1 with
            queryW := sliceAssign2 r0 r1 ctx.lh sa1.queryW ssl.queryW
            keyW := sliceAssign2 r0 r1 ctx.lh sa1.keyW ssl.keyW
            valueW := sliceAssign2 r0 r1 ctx.lh sa1.valueW ssl.valueW }
        else
          { sa1 with
            queryW := sliceAssignOffset2 r0 r1 ctx.lh sa1.queryW
              (ctx.rpFit ctx.lh (fun a b => ssl.queryW (r0 + a) b))
            keyW := sliceAssignOffset2 r0 r1 ctx.lh sa1.keyW
              (ctx.rpFit ctx.lh (fun a b => ssl.keyW (r0 + a) b))
            valueW := sliceAssignOffset2 r0 r1 ctx.lh sa1.valueW
              (ctx.rpFit ctx.lh (fun a b => ssl.valueW (r0 + a) b)) }
      else
        { sa1 with
          queryW := sliceRows2 r0 r1 sa1.queryW ssl.queryW
          keyW := sliceRows2 r0 r1 sa1.keyW ssl.keyW
          valueW := sliceRows2 r0 r1 sa1.valueW ssl.valueW }
    { tl with selfAttn := sa2 }
  else tl

/-- Lines 1726-1740: the bilinear (`wma`/`wma`) sub-case of the head loop.
With equal head sizes, line 1728 `setattr`s the target's `W{wma_count}`
attribute to the source's `W{wma_count}` `Parameter` object (reference
assignment).  With differing sizes, the `OD` path (line 1735) evaluates
the free name `source` and the `RP` path (lines 1737-1739) calls
`torch.from_nump`, so both raise.  Returns the updated layer, the new
`wma_count`, and the exception if one was raised. -/
def hetWmaStep (ctx : HetHeadCtx) (wmaC : Nat) (tl : HetLayerParams) :
    (HetLayerParams × Nat) × Option PyExc :=
  if ctx.ahs = ctx.sAhs then
    let sa := tl.selfAttn
    ((({ tl with selfAttn :=
        { sa with wRefs := sa.wRefs.set wmaC (ctx.sl.selfAttn.wRefs.getD wmaC 0) } }),
      wmaC + 1), none)
  else
    let curr_w := heapRead ctx.heap (tl.selfAttn.wRefs.getD wmaC 0)
    let source_w := heapRead ctx.heap (ctx.sl.selfAttn.wRefs.getD wmaC 0)
    if ctx.mode = "OD" then
      match evalFreeName "source" with
      | .ok _ =>
          -- unreachable: `source` is unbound, so line 1735 cannot assign
          (((let _ := curr_w; tl), wmaC + 1), none)
      | .error e => ((tl, wmaC), some e)
    else
      let source_w1 := ctx.rpFit ctx.lah source_w
      let _source_w2 := ctx.rpFit ctx.lah (matTranspose source_w1)
      match getTorchAttr "from_nump" with
      | .ok _ => ((tl, wmaC + 1), none)
      | .error e => ((tl, wmaC), some e)

/-- Lines 1741-1773: the convolutional sub-case of the head loop.  With
equal head sizes and equal kernel sizes the three conv layers are loaded
wholesale (`load_state_dict`; `unfold` has no parameters); otherwise the
leading slices are copied and the depthwise kernel is interpolated to the
smaller kernel size (the `TODO: Implement RP for convolutional layers`
branch, lines 1759-1772) — no exception is raised either way. -/
def hetConvStep (ctx : HetHeadCtx) (j convC : Nat) (tl : HetLayerParams) :
    (HetLayerParams × Nat) × Option PyExc :=
  let currS := (ctx.tHeads.getD j default).sim
  let srcS := (ctx.sHeads.getD j default).sim
  match pyInt currS with
  | .error e => ((tl, convC), some e)
  | .ok ck =>
    match pyInt srcS with
    | .error e => ((tl, convC), some e)
    | .ok sk =>
      let lower_sim_type := min ck sk
      let curr := tl.selfAttn.convs.getD convC default
      let src := ctx.sl.selfAttn.convs.getD convC default
      let curr' :=
        if ctx.ahs = ctx.sAhs ∧ ck = sk then src
        else
          { key_conv_attn :=
              { bias := sliceRows2 0 ctx.lah curr.key_conv_attn.bias src.key_conv_attn.bias
                depthwise := fun a b c =>
                  if a < ctx.lah ∧ c < lower_sim_type then
                    interpNearest sk lower_sim_type src.key_conv_attn.depthwise a b c
                  else curr.key_conv_attn.depthwise a b c
                pointwise := fun a b c =>
                  if a < ctx.lah ∧ b < ctx.lah then src.key_conv_attn.pointwise a b c
                  else curr.key_conv_attn.pointwise a b c }
            conv_kernel_weight :=
              sliceLow2 lower_sim_type ctx.lah curr.conv_kernel_weight src.conv_kernel_weight
            conv_kernel_bias :=
              sliceLow1 lower_sim_type curr.conv_kernel_bias src.conv_kernel_bias
            conv_out_weight :=
              sliceLow2 ctx.lah ctx.lah curr.conv_out_weight src.conv_out_weight
            conv_out_bias := sliceLow1 ctx.lah curr.conv_out_bias src.conv_out_bias }
      ((({ tl with selfAttn :=
          { tl.selfAttn with convs := tl.selfAttn.convs.set convC curr' } }),
        convC + 1), none)

/-- The variant-specific dispatch of lines 1726-1773: the bilinear case
when both similarity tags are `"wma"`, the convolutional case when the
target's similarity tag is numeric, and nothing otherwise. -/
def hetVariantStep (ctx : HetHeadCtx) (j wmaC convC : Nat) (tl : HetLayerParams) :
    (HetLayerParams × Nat × Nat) × Option PyExc :=
  let currS := (ctx.tHeads.getD j default).sim
  let srcS := (ctx.sHeads.getD j default).sim
  if currS = "wma" ∧ srcS = "wma" then
    let r := hetWmaStep ctx wmaC tl
    ((r.1.1, r.1.2, convC), r.2)
  else if (pyStrToNat? currS).isSome then
    let r := hetConvStep ctx j convC tl
    ((r.1.1, wmaC, r.1.2), r.2)
  else ((tl, wmaC, convC), none)

/-- Lines 1775-1793, executed for every head index `j` (inside the head
loop but outside the type-match guard): the attention output projection.
With matching `all_head_size` and hidden width the whole
`attention.output` state dict is loaded (dense and LayerNorm); otherwise
the dense bias prefix and the head-`j` column block of the dense weight
are written, and in the equal-hidden sub-case line 1793 asserts
`weight.shape[0] == lower_hidden_size`. -/
def hetAttnOutputStep (ctx : HetHeadCtx) (j : Nat) (tl : HetLayerParams) :
    HetLayerParams × Option PyExc :=
  if ctx.curr_all_head_size = ctx.source_all_head_size ∧ ctx.tHidden = ctx.sHidden then
    ({ tl with
        attnOutDenseW := ctx.sl.attnOutDenseW
        attnOutDenseB := ctx.sl.attnOutDenseB
        attnOutLnW := ctx.sl.attnOutLnW
        attnOutLnB := ctx.sl.attnOutLnB }, none)
  else
    let c0 := j * ctx.ahs
    let c1 := (j + 1) * ctx.ahs
    let tl1 := { tl with attnOutDenseB := sliceLow1 ctx.lh tl.attnOutDenseB ctx.sl.attnOutDenseB }
    if ctx.tHidden ≠ ctx.sHidden then
      if ctx.mode = "OD" then
        ({ tl1 with attnOutDenseW := fun r c =>
            if r < ctx.lh ∧ c0 ≤ c ∧ c < c1 then ctx.sl.attnOutDenseW r c
            else tl1.attnOutDenseW r c }, none)
      else
        let projected := matTranspose (ctx.rpFit ctx.lh
          (matTranspose (fun r c => ctx.sl.attnOutDenseW r (c0 + c))))
        ({ tl1 with attnOutDenseW := fun r c =>
            if r < ctx.lh ∧ c0 ≤ c ∧ c < c1 then projected r (c - c0)
            else tl1.attnOutDenseW r c }, none)
    else
      let tl2 := { tl1 with attnOutDenseW := sliceCols2 c0 c1 tl1.attnOutDenseW ctx.sl.attnOutDenseW }
      if ctx.tHidden = ctx.lh then (tl2, none)
      else (tl2, some (.assertionError "attention output dense shape"))

/-- One iteration of the head loop (lines 1687-1793) at head index `j`,
carrying `(layer, wma_count, conv_count)`: the type-guarded transfers
(lines 1689-1773) followed, when no exception was raised, by the
per-head attention output step. -/
def hetHeadStep (ctx : HetHeadCtx) (j : Nat) (st : HetLayerParams × Nat × Nat) :
    (HetLayerParams × Nat × Nat) × Option PyExc :=
  let tl := st.1
  let wmaC := st.2.1
  let convC := st.2.2
  if (ctx.tHeads.getD j default).attn = (ctx.sHeads.getD j default).attn then
    let tl1 := hetQKVDebugStep ctx j tl
    let v := hetVariantStep ctx j wmaC convC tl1
    match v.2 with
    | some e => (v.1, some e)
    | none =>
      let o := hetAttnOutputStep ctx j v.1.1
      ((o.1, v.1.2.1, v.1.2.2), o.2)
  else
    let o := hetAttnOutputStep ctx j tl
    ((o.1, wmaC, convC), o.2)

/-- The head loop over `j in range(min(len(curr_heads), len(source_heads)))`,
stopping at the first exception but keeping the mutations already made. -/
def hetHeadLoop (ctx : HetHeadCtx) :
    List Nat → HetLayerParams × Nat × Nat → (HetLayerParams × Nat × Nat) × Option PyExc
  | [], st => (st, none)
  | j :: rest, st =>
    let r := hetHeadStep ctx j st
    match r.2 with
    | none => hetHeadLoop ctx rest r.1
    | some e => (r.1, some e)

/-- Shape of `intermediate.sequential[2f].weight` from the config: stage
`f` maps width `ff_dims[f-1]` (or the hidden width for `f = 0`) to
`ff_dims[f]`. -/
def ffWeightRows (lc : HetLayerCfg) (f : Nat) : Nat := lc.ff_dims.getD f 0

/-- Column count of `intermediate.sequential[2f].weight`. -/
def ffWeightCols (lc : HetLayerCfg) (f : Nat) : Nat :=
  if f = 0 then lc.hidden_dim else lc.ff_dims.getD (f - 1) 0

/-- Lines 1806-1816: the feed-forward stage loop, copying the overlapping
leading blocks of each stage's weight and bias. -/
def hetFfLoop (tc sc : HetLayerCfg) (sl : HetLayerParams) :
    List Nat → HetLayerParams → HetLayerParams
  | [], tl => tl
  | f :: rest, tl =>
    let d0 := min (ffWeightRows tc f) (ffWeightRows sc f)
    let d1 := min (ffWeightCols tc f) (ffWeightCols sc f)
    let tl' := { tl with
      interW := tl.interW.set f
        (sliceLow2 d0 d1 (tl.interW.getD f default) (sl.interW.getD f default))
      interB := tl.interB.set f
        (sliceLow1 d0 (tl.interB.getD f default) (sl.interB.getD f default)) }
    hetFfLoop tc sc sl rest tl'

/-- The sizes computed at lines 1645-1654 and 1683-1684 of the per-layer
body, packaged as the context the head loop reads (line 1648's
`lower_all_head_size` is computed by the source but never used, and is
omitted). -/
def hetMkCtx (mode : String) (debug : Bool) (rpFit : Nat → Mat → Mat)
    (heap : WHeap) (tc sc : HetLayerCfg) (sl : HetLayerParams) : HetHeadCtx :=
  let ahs := (tc.heads.getD 0 default).size
  let sAhs := (sc.heads.getD 0 default).size
  { mode := mode, debug := debug, rpFit := rpFit, heap := heap
    tHidden := tc.hidden_dim, sHidden := sc.hidden_dim
    ahs := ahs, sAhs := sAhs
    lah := min ahs sAhs, lh := min tc.hidden_dim sc.hidden_dim
    tHeads := tc.heads, sHeads := sc.heads
    curr_all_head_size := tc.heads.length * ahs
    source_all_head_size := sc.heads.length * sAhs
    sl := sl }

/-- Lines 1659-1675: the distance-embedding transfer (direct load with
equal head sizes, else a leading-column copy or a random projection per
`transfer_mode`). -/
def hetDistanceStep (mode : String) (rpFit : Nat → Mat → Mat) (lah ahs sAhs : Nat)
    (sl tl : HetLayerParams) : HetLayerParams :=
  if ahs = sAhs then
    { tl with selfAttn :=
        { tl.selfAttn with
          distance_embedding := sl.selfAttn.distance_embedding } }
  else if mode = "OD" then
    { tl with selfAttn :=
        { tl.selfAttn with
          distance_embedding :=
            sliceCols2 0 lah tl.selfAttn.distance_embedding sl.selfAttn.distance_embedding } }
  else
    { tl with selfAttn :=
        { tl.selfAttn with
          distance_embedding :=
            sliceCols2 0 lah tl.selfAttn.distance_embedding
              (rpFit lah sl.selfAttn.distance_embedding) } }

/-- The tail of the per-layer body once the head loop finished without an
exception (lines 1795-1836): attention output LayerNorm, feed-forward
stages, output dense, output LayerNorm. -/
def hetPostSteps (mode : String) (rpFit : Nat → Mat → Mat) (lh : Nat)
    (tc sc : HetLayerCfg) (sl : HetLayerParams) (tl1 : HetLayerParams) : HetLayerParams :=
  -- lines 1795-1803: attention output LayerNorm (dropout has no parameters)
  let tl2 :=
    if tc.hidden_dim = sc.hidden_dim then
      { tl1 with attnOutLnW := sl.attnOutLnW, attnOutLnB := sl.attnOutLnB }
    else
      { tl1 with
        attnOutLnW := sliceLow1 lh tl1.attnOutLnW sl.attnOutLnW
        attnOutLnB := sliceLow1 lh tl1.attnOutLnB sl.attnOutLnB }
  -- lines 1806-1816: feed-forward stages
  let tl3 := hetFfLoop tc sc sl (List.range (min tc.ff_dims.length sc.ff_dims.length)) tl2
  -- lines 1818-1830: output dense
  let output_lower_dim := min (tc.ff_dims.getLastD 0) (sc.ff_dims.getLastD 0)
  let tl4 := { tl3 with outDenseB := sliceLow1 lh tl3.outDenseB sl.outDenseB }
  let tl5 :=
    if tc.hidden_dim ≠ sc.hidden_dim then
      if mode = "OD" then
        { tl4 with outDenseW := sliceLow2 lh output_lower_dim tl4.outDenseW sl.outDenseW }
      else
        { tl4 with
          outDenseW :=
            sliceLow2 lh output_lower_dim tl4.outDenseW
              (matTranspose (rpFit lh (matTranspose sl.outDenseW))) }
    else
      { tl4 with outDenseW := sliceCols2 0 output_lower_dim tl4.outDenseW sl.outDenseW }
  -- lines 1832-1836: output LayerNorm
  if tc.hidden_dim = sc.hidden_dim then
    { tl5 with outLnW := sl.outLnW, outLnB := sl.outLnB }
  else
    { tl5 with
      outLnW := sliceLow1 lh tl5.outLnW sl.outLnW
      outLnB := sliceLow1 lh tl5.outLnB sl.outLnB }

/-- The per-layer body of the heterogeneous branch (lines 1645-1838):
distance embedding, head loop, then the post steps.  An exception raised
inside the head loop aborts the rest of the layer (and, at the caller,
the remaining layers). -/
def hetTransferLayer (mode : String) (debug : Bool) (rpFit : Nat → Mat → Mat)
    (heap : WHeap) (tc sc : HetLayerCfg) (sl : HetLayerParams) (tl : HetLayerParams) :
    HetLayerParams × Option PyExc :=
  let ctx : HetHeadCtx := hetMkCtx mode debug rpFit heap tc sc sl
  -- line 1656: attention.self.dropout.load_state_dict — no parameters
  -- lines 1659-1675: distance embedding
  let tl0 := hetDistanceStep mode rpFit ctx.lah ctx.ahs ctx.sAhs sl tl
  let lp := hetHeadLoop ctx (List.range (min tc.heads.length sc.heads.length)) (tl0, 0, 0)
  match lp.2 with
  | some e => (lp.1.1, some e)
  | none => (hetPostSteps mode rpFit ctx.lh tc sc sl lp.1.1, none)

/-- The heterogeneous encoder loop over
`i in range(min(num_hidden_layers))` (line 1641): like the homogeneous
loop but with no break condition; an exception stops the walk, leaving
the remaining layers untouched. -/
def hetEncoderGo (mode : String) (debug : Bool) (rpFit : Nat → Mat → Mat)
    (heap : WHeap) (tcfg scfg : HetConfig) (sLayers : List HetLayerParams) (m : Nat) :
    Nat → List HetLayerParams → List HetLayerParams × Option PyExc
  | _, [] => ([], none)
  | i, tl :: rest =>
    if i < m then
      let r := hetTransferLayer mode debug rpFit heap (tcfg.layers.getD i default)
        (scfg.layers.getD i default) (sLayers.getD i default) tl
      match r.2 with
      | none =>
        let r' := hetEncoderGo mode debug rpFit heap tcfg scfg sLayers m (i + 1) rest
        (r.1 :: r'.1, r'.2)
      | some e => (r.1 :: rest, some e)
    else (tl :: rest, none)

/-- `BertModelModular.load_model_from_source` in the heterogeneous branch
(lines 1595-1636 and 1639-1838): embedding transfer followed by the
heterogeneous encoder walk.  Returns the updated target model, the final
`count` (the heterogeneous encoder walk never increments it, so it is the
embedding contribution alone), and the exception, if one was raised
(which the Python code would propagate to the caller, the in-place
mutations already made surviving). -/
def load_model_from_source_het (mode : String) (debug : Bool)
    (rpFit : Nat → Mat → Mat) (heap : WHeap) (t s : HetModel) :
    HetModel × Nat × Option PyExc :=
  let e :=
    transferEmbeddings mode rpFit (t.cfg.hiddenDim 0) (s.cfg.hiddenDim 0) t.emb s.emb
  let m := min t.cfg.layers.length s.cfg.layers.length
  let r := hetEncoderGo mode debug rpFit heap t.cfg s.cfg s.layers m 0 t.layers
  ({ t with emb := e.1, layers := r.1 }, e.2, r.2)

/-! ## Concrete model instances

Small closed models used to evaluate the transfer engine on specific
inputs.  Target models are initialized with all-zero parameter blocks and
source models with all-one blocks, so "still at initialization" is
observable as the value `0` and "transferred" as the value `1`. -/

/-- The constant 1-d tensor. -/
def constVec (q : ℚ) : Vec := fun _ => q

/-- The constant 2-d tensor. -/
def constMat (q : ℚ) : Mat := fun _ _ => q

/-- The constant 3-d tensor. -/
def constTen3 (q : ℚ) : Ten3 := fun _ _ _ => q

/-- The constant parameter block. -/
def constBlock (q : ℚ) : Block := fun _ => q

/-- Embedding parameters all equal to `q`. -/
def constEmb (q : ℚ) : EmbParams :=
  ⟨constMat q, constMat q, constMat q, constVec q, constVec q, constVec q⟩

/-- A homogeneous layer's blocks all equal to `q`. -/
def constHomLayer (q : ℚ) : HomLayerParams := ⟨constBlock q, constBlock q, constBlock q⟩

/-- One homogeneous `"sa"`/`"sdp"` layer of hidden width 4, 2 heads, one
feed-forward stage of width 8. -/
def homCfgLayerSdp : HomLayerCfg := ⟨"sa", 4, 2, "sdp", [8]⟩

/-- The same layer shape with `"wma"` similarity. -/
def homCfgLayerWma : HomLayerCfg := ⟨"sa", 4, 2, "wma", [8]⟩

/-- A one-layer homogeneous config (absolute position embeddings). -/
def homCfg1 : HomConfig := ⟨[homCfgLayerSdp], "absolute"⟩

/-- Target model over `homCfg1`, all parameters 0. -/
def homT1 : HomModel := ⟨homCfg1, constEmb 0, [constHomLayer 0]⟩

/-- Source model over `homCfg1` (the identical config), all parameters 1. -/
def homS1 : HomModel := ⟨homCfg1, constEmb 1, [constHomLayer 1]⟩

/-- Two-layer homogeneous target config: both layers `"sa"`/`"sdp"`. -/
def homCfgT2 : HomConfig := ⟨[homCfgLayerSdp, homCfgLayerSdp], "absolute"⟩

/-- Two-layer homogeneous source config: layer 0 has `"wma"` similarity
(same `"sa"` attention type as the target), layer 1 is identical to the
target's. -/
def homCfgS2 : HomConfig := ⟨[homCfgLayerWma, homCfgLayerSdp], "absolute"⟩

/-- Target model over `homCfgT2`, all parameters 0. -/
def homT2 : HomModel := ⟨homCfgT2, constEmb 0, [constHomLayer 0, constHomLayer 0]⟩

/-- Two-layer homogeneous source config whose layer 0 has attention type
`"l"` (the target's is `"sa"`). -/
def homCfgS2b : HomConfig := ⟨[⟨"l", 4, 2, "dft", [8]⟩, homCfgLayerSdp], "absolute"⟩

/-- Source model over `homCfgS2b`, all parameters 1. -/
def homS2b : HomModel := ⟨homCfgS2b, constEmb 1, [constHomLayer 1, constHomLayer 1]⟩

/-- Source model over `homCfgS2`, all parameters 1. -/
def homS2 : HomModel := ⟨homCfgS2, constEmb 1, [constHomLayer 1, constHomLayer 1]⟩

/-- Conv-head parameters all equal to `q`. -/
def constConvHead (q : ℚ) : ConvHeadParams :=
  ⟨⟨constTen3 q, constTen3 q, constMat q⟩, constMat q, constVec q, constMat q, constVec q⟩

/-- Heterogeneous self-attention parameters all equal to `q`, with the
given bilinear references and conv groups. -/
def constHetSelf (q : ℚ) (wRefs : List Nat) (convs : List ConvHeadParams) : HetSelfParams :=
  ⟨constMat q, constVec q, constMat q, constVec q, constMat q, constVec q,
   constMat q, wRefs, convs⟩

/-- A heterogeneous layer's parameters all equal to `q`. -/
def constHetLayer (q : ℚ) (wRefs : List Nat) (convs : List ConvHeadParams) : HetLayerParams :=
  ⟨constHetSelf q wRefs convs, constMat q, constVec q, constVec q, constVec q,
   [constMat q], [constVec q], constMat q, constVec q, constVec q, constVec q⟩

/-- Identity random-projection oracle for concrete evaluations. -/
def rpId : Nat → Mat → Mat := fun _ m => m

/-- C4's failing input, target side: one layer, hidden width 4, two
`sa_wma_4` heads; its two bilinear parameters `W0, W1` are heap cells 0
and 1. -/
def hetT4 : HetModel :=
  ⟨⟨[⟨4, [⟨"sa", "wma", 4⟩, ⟨"sa", "wma", 4⟩], [8]⟩]⟩, constEmb 0,
   [constHetLayer 0 [0, 1] []]⟩

/-- C4's failing input, source side: one layer, hidden width 4, heads
`l_dft_4` and `sa_wma_4`; its single bilinear parameter `W0` (owned by
head 1, the only `wma` head) is heap cell 2. -/
def hetS4 : HetModel :=
  ⟨⟨[⟨4, [⟨"l", "dft", 4⟩, ⟨"sa", "wma", 4⟩], [8]⟩]⟩, constEmb 1,
   [constHetLayer 1 [2] []]⟩

/-- The heap for C4: the target's `W0`, `W1` hold 0 and the source's `W0`
holds 2, so reads distinguish the three parameters. -/
def heap4 : WHeap := [constMat 0, constMat 0, constMat 2]

/-- C5's input, target side: one layer, hidden width 4, a single
convolutional head `c_3_4` (kernel 3, head size 4). -/
def hetT5 : HetModel :=
  ⟨⟨[⟨4, [⟨"c", "3", 4⟩], [8]⟩]⟩, constEmb 0, [constHetLayer 0 [] [constConvHead 0]]⟩

/-- C5's input, source side: one layer, hidden width 4, a single
convolutional head `c_5_8` (kernel 5, head size 8) — both the kernel size
and the head size differ from the target's. -/
def hetS5 : HetModel :=
  ⟨⟨[⟨4, [⟨"c", "5", 8⟩], [8]⟩]⟩, constEmb 1, [constHetLayer 1 [] [constConvHead 1]]⟩

/-- C6's input, target side: one layer, hidden width 4, a single
`sa_wma_4` head whose `W0` is heap cell 0. -/
def hetT6 : HetModel :=
  ⟨⟨[⟨4, [⟨"sa", "wma", 4⟩], [8]⟩]⟩, constEmb 0, [constHetLayer 0 [0] []]⟩

/-- C6's input, source side: the identical config; its `W0` is heap
cell 1. -/
def hetS6 : HetModel :=
  ⟨⟨[⟨4, [⟨"sa", "wma", 4⟩], [8]⟩]⟩, constEmb 1, [constHetLayer 1 [1] []]⟩

/-- The heap for C6: target `W0` holds 0, source `W0` holds 5. -/
def heap6 : WHeap := [constMat 0, constMat 5]

/-- C8's input, target side: one layer, hidden width 4, one `sa_wma_4`
head. -/
def hetT8 : HetModel :=
  ⟨⟨[⟨4, [⟨"sa", "wma", 4⟩], [8]⟩]⟩, constEmb 0, [constHetLayer 0 [0] []]⟩

/-- C8's input, source side: one layer, hidden width 4, one `sa_wma_8`
head — matched `wma` head with a differing attention head size. -/
def hetS8 : HetModel :=
  ⟨⟨[⟨4, [⟨"sa", "wma", 8⟩], [8]⟩]⟩, constEmb 1, [constHetLayer 1 [1] []]⟩

/-- The heap for C8. -/
def heap8 : WHeap := [constMat 0, constMat 1]

/-- The query/key/value parameters of a heterogeneous self-attention
block, as one tuple (used to state that the transfer leaves them
untouched). -/
def qkvOf (sa : HetSelfParams) : Mat × Vec × Mat × Vec × Mat × Vec :=
  (sa.queryW, sa.queryB, sa.keyW, sa.keyB, sa.valueW, sa.valueB)

/-- The `count` the homogeneous encoder loop accumulates between two
models of identical config, from layer `i` with `r` layers remaining:
each layer loads its attention and intermediate blocks, and its output
block only when a next layer exists inside the loop range. -/
def homIdCount (c : HomConfig) : Nat → Nat → Nat
  | _, 0 => 0
  | i, r + 1 =>
    attnSdLen c.position_embedding_type (c.layers.getD i default) +
      interSdLen (c.layers.getD i default) +
      (if i + 1 < c.numLayers then outputSdLen c i else 0) + homIdCount c (i + 1) r

/-- A concrete one-dimensional decoder self-attention instance. -/
def p10 : SelfAttnParams :=
  ⟨1, 1, 1, constMat 1, constVec 0, constMat 1, constVec 0, constMat 1, constVec 0, true⟩

/-- A concrete cache of sequence length 1, with key entries 7 and value
entries 8. -/
def cache10 : KvCache := ⟨1, fun _ _ _ _ => 7, fun _ _ _ _ => 8⟩

/-- Whether a fallible computation succeeded (construction did not
raise). -/
def exceptIsOk {ε α : Type} : Except ε α → Bool
  | .ok _ => true
  | .error _ => false

/-!
# Theorems
-/

/-- Helper: a list of naturals forms a one-element finset exactly when it
is nonempty and all its members agree. -/
theorem toFinset_card_eq_one_iff (l : List Nat) (hne : l ≠ []) :
    l.toFinset.card = 1 ↔ ∀ a ∈ l, ∀ b ∈ l, a = b := by
  constructor
  · intro h a ha b hb
    obtain ⟨x, hx⟩ := Finset.card_eq_one.mp h
    have ha' : a ∈ l.toFinset := List.mem_toFinset.mpr ha
    have hb' : b ∈ l.toFinset := List.mem_toFinset.mpr hb
    rw [hx] at ha' hb'
    have := Finset.mem_singleton.mp ha'
    have := Finset.mem_singleton.mp hb'
    omega
  · intro h
    obtain ⟨x, xs, rfl⟩ := List.exists_cons_of_ne_nil hne
    apply Finset.card_eq_one.mpr
    refine ⟨x, ?_⟩
    ext y
    simp only [List.mem_toFinset, Finset.mem_singleton]
    constructor
    · intro hy
      exact h y hy x (by simp)
    · intro hy
      simp [hy]

/-- C7: construction of an attention block fails exactly on a shape
invariant violation — `BertSelfAttentionModular.__init__` (homogeneous
mode) raises iff the hidden width is not divisible by the head count and
no `embedding_size` override exists, and
`BertHeteroAttentionModular.__init__` (heterogeneous mode) raises iff the
declared per-head sizes disagree.  (The head count is required positive
and the head list nonempty: Python `%` by zero and `set()` of an empty
list fail for reasons outside the shape invariants.) -/
theorem C7_attention_construction_fails_iff (c : HomAttnCfg) (heads : List HeadSpec)
    (hpos : 0 < c.num_heads) (hne : heads ≠ []) :
    (exceptIsOk (bertSelfAttentionInit c) = true ↔
      (c.hidden_dim % c.num_heads = 0 ∨ c.has_embedding_size = true)) ∧
    (exceptIsOk (bertHeteroAttentionInit heads) = true ↔
      ∀ a ∈ heads, ∀ b ∈ heads, a.size = b.size) := by
  constructor
  · unfold bertSelfAttentionInit
    by_cases h : c.hidden_dim % c.num_heads ≠ 0 ∧ c.has_embedding_size = false
    · simp only [if_pos h, exceptIsOk]
      constructor
      · intro hc
        exact absurd hc (by simp)
      · intro hc
        rcases hc with hc | hc
        · exact absurd hc h.1
        · rw [h.2] at hc
          exact absurd hc (by simp)
    · simp only [if_neg h, exceptIsOk, true_iff]
      by_cases h0 : c.hidden_dim % c.num_heads = 0
      · exact Or.inl h0
      · right
        rcases Bool.eq_false_or_eq_true c.has_embedding_size with hb | hb
        · exact hb
        · exact absurd ⟨h0, hb⟩ h
  · unfold bertHeteroAttentionInit
    have hmapne : heads.map (·.size) ≠ [] := by
      simpa using hne
    by_cases h : (heads.map (·.size)).toFinset.card = 1
    · simp only [if_pos h, exceptIsOk, true_iff]
      intro a ha b hb
      exact (toFinset_card_eq_one_iff _ hmapne).mp h a.size
        (List.mem_map.mpr ⟨a, ha, rfl⟩) b.size (List.mem_map.mpr ⟨b, hb, rfl⟩)
    · simp only [if_neg h, exceptIsOk]
      constructor
      · intro hc
        exact absurd hc (by simp)
      · intro hall
        exfalso
        apply h
        apply (toFinset_card_eq_one_iff _ hmapne).mpr
        intro a ha b hb
        obtain ⟨a', ha', rfl⟩ := List.mem_map.mp ha
        obtain ⟨b', hb', rfl⟩ := List.mem_map.mp hb
        exact hall a' ha' b' hb'

/-- Witness for C7 at a concrete config: hidden width 8, 2 heads, no
override; heterogeneous head list `[sa_sdp_4, l_dft_4]`. -/
theorem C7_witness :
    0 < (HomAttnCfg.mk 8 2 false).num_heads ∧
    ([⟨"sa", "sdp", 4⟩, ⟨"l", "dft", 4⟩] : List HeadSpec) ≠ [] ∧
    ((exceptIsOk (bertSelfAttentionInit (HomAttnCfg.mk 8 2 false)) = true ↔
        ((HomAttnCfg.mk 8 2 false).hidden_dim % (HomAttnCfg.mk 8 2 false).num_heads = 0 ∨
          (HomAttnCfg.mk 8 2 false).has_embedding_size = true)) ∧
      (exceptIsOk (bertHeteroAttentionInit [⟨"sa", "sdp", 4⟩, ⟨"l", "dft", 4⟩]) = true ↔
        ∀ a ∈ ([⟨"sa", "sdp", 4⟩, ⟨"l", "dft", 4⟩] : List HeadSpec),
          ∀ b ∈ ([⟨"sa", "sdp", 4⟩, ⟨"l", "dft", 4⟩] : List HeadSpec), a.size = b.size)) :=
  ⟨by decide, by decide,
    C7_attention_construction_fails_iff (HomAttnCfg.mk 8 2 false)
      [⟨"sa", "sdp", 4⟩, ⟨"l", "dft", 4⟩] (by decide) (by decide)⟩

/-- C10: in decoder self-attention with a cache present (no
cross-attention), the freshly projected key/value tensors are concatenated
onto the cached ones along the sequence axis: every cached position reads
back unchanged (monotonic append, no reordering), every new position
holds the projection of the current hidden states, and the returned cache
is exactly the concatenated pair. -/
theorem C10_decoder_cache_append (p : SelfAttnParams) (hidden : Ten3) (pkv : KvCache)
    (b h sIdx d s2 : Nat) (hdec : p.is_decoder = true) (hs : sIdx < pkv.len) :
    ((selfAttnKeyValue p hidden none (some pkv)).1 b h sIdx d = pkv.key b h sIdx d ∧
      (selfAttnKeyValue p hidden none (some pkv)).2.1 b h sIdx d = pkv.value b h sIdx d) ∧
    ((selfAttnKeyValue p hidden none (some pkv)).1 b h (pkv.len + s2) d =
        transpose_for_scores p.attention_head_size
          (nnLinear p.hidden_size p.keyW p.keyB hidden) b h s2 d ∧
      (selfAttnKeyValue p hidden none (some pkv)).2.1 b h (pkv.len + s2) d =
        transpose_for_scores p.attention_head_size
          (nnLinear p.hidden_size p.valueW p.valueB hidden) b h s2 d) ∧
    (selfAttnKeyValue p hidden none (some pkv)).2.2 =
      some ((selfAttnKeyValue p hidden none (some pkv)).1,
        (selfAttnKeyValue p hidden none (some pkv)).2.1) := by
  have hlt : ¬ (pkv.len + s2 < pkv.len) := by omega
  refine ⟨⟨?_, ?_⟩, ⟨?_, ?_⟩, ?_⟩ <;>
    simp [selfAttnKeyValue, catDim2, hs, hlt, hdec, Nat.add_sub_cancel_left]

/-- Witness for C10 at a concrete decoder instance (all dimensions 1,
cache of length 1). -/
theorem C10_witness :
    p10.is_decoder = true ∧ 0 < cache10.len ∧
    ((selfAttnKeyValue p10 (constTen3 1) none (some cache10)).1 0 0 0 0 =
        cache10.key 0 0 0 0 ∧
      (selfAttnKeyValue p10 (constTen3 1) none (some cache10)).2.1 0 0 0 0 =
        cache10.value 0 0 0 0) :=
  ⟨rfl, by decide,
    (C10_decoder_cache_append p10 (constTen3 1) cache10 0 0 0 0 0 rfl (by decide)).1⟩

/-- Helper: with well-formed head descriptors every head appends exactly
one score tensor to `attention_scores_list`. -/
theorem scoresGo_length (q k : PTensor) (heads : List HeadSpec) :
    ∀ (h : Nat) (ws : List Mat), (∀ hd ∈ heads, WfHead hd) →
      (attentionScoresListGo q k heads h ws).length = heads.length := by
  induction heads with
  | nil => intro h ws _; rfl
  | cons hd rest ih =>
    intro h ws hwf
    have hhd := hwf hd (by simp)
    have hrest : ∀ x ∈ rest, WfHead x := fun x hx => hwf x (by simp [hx])
    rcases hhd with ⟨ha, hs | hs⟩ | ha | ha
    · simp [attentionScoresListGo, ha, hs, ih _ _ hrest]
    · simp [attentionScoresListGo, ha, hs, ih _ _ hrest]
    · simp [attentionScoresListGo, ha, ih _ _ hrest]
    · simp [attentionScoresListGo, ha, ih _ _ hrest]

/-- Helper: the score tensor appended for a spectral (`"l"`) or
convolutional (`"c"`) head is the all-zero placeholder of shape
`attention_scores_size` with axis 1 removed. -/
theorem scoresGo_get_lc (q k : PTensor) (heads : List HeadSpec) :
    ∀ (h : Nat) (ws : List Mat) (j : Nat) (hd : HeadSpec),
      (∀ x ∈ heads, WfHead x) → heads.get? j = some hd →
      (hd.attn = "l" ∨ hd.attn = "c") →
      (attentionScoresListGo q k heads h ws).get? j =
        some (ptZeros ((attentionScoresSize q).eraseIdx 1)) := by
  induction heads with
  | nil => intro h ws j hd _ hj _; simp at hj
  | cons hd0 rest ih =>
    intro h ws j hd hwf hj hlc
    have hrest : ∀ x ∈ rest, WfHead x := fun x hx => hwf x (by simp [hx])
    match j with
    | 0 =>
      simp only [List.get?_cons_zero, Option.some.injEq] at hj
      subst hj
      rcases hlc with ha | ha
      · simp [attentionScoresListGo, ha]
      · simp [attentionScoresListGo, ha]
    | j' + 1 =>
      simp only [List.get?_cons_succ] at hj
      have hhd0 := hwf hd0 (by simp)
      rcases hhd0 with ⟨ha, hs | hs⟩ | ha | ha
      · simp only [attentionScoresListGo, ha, hs]
        simpa using ih (h + 1) ws j' hd hrest hj hlc
      · simp only [attentionScoresListGo, ha, hs]
        simpa using ih (h + 1) ws.tail j' hd hrest hj hlc
      · simp only [attentionScoresListGo, ha]
        simpa using ih (h + 1) ws j' hd hrest hj hlc
      · simp only [attentionScoresListGo, ha]
        simpa using ih (h + 1) ws j' hd hrest hj hlc

/-- Helper: every tensor in `attention_scores_list` has shape
`[B, S, S]` once the query/key layers have shape `[B, H, S, D]`. -/
theorem scoresGo_shapes (q k : PTensor) (B H S D : Nat)
    (hq : q.shape = [B, H, S, D]) (hk : k.shape = [B, H, S, D])
    (heads : List HeadSpec) :
    ∀ (h : Nat) (ws : List Mat), (∀ x ∈ heads, WfHead x) →
      ∀ t ∈ attentionScoresListGo q k heads h ws, t.shape = [B, S, S] := by
  induction heads with
  | nil => intro h ws _ t ht; simp [attentionScoresListGo] at ht
  | cons hd0 rest ih =>
    intro h ws hwf t ht
    have hrest : ∀ x ∈ rest, WfHead x := fun x hx => hwf x (by simp [hx])
    have hhd0 := hwf hd0 (by simp)
    have hsdp : (matmul3 (headSlice q h) (transposeLast2 (headSlice k h))).shape
        = [B, S, S] := by
      simp [matmul3, headSlice, transposeLast2, hq, hk]
    have hwma : ∀ w : Mat,
        (matmul3 (matmulMat (headSlice q h) w) (transposeLast2 (headSlice k h))).shape
        = [B, S, S] := by
      intro w
      simp [matmul3, matmulMat, headSlice, transposeLast2, hq, hk]
    have hzero : (ptZeros ((attentionScoresSize q).eraseIdx 1)).shape = [B, S, S] := by
      simp [ptZeros, attentionScoresSize, hq]
    rcases hhd0 with ⟨ha, hs | hs⟩ | ha | ha
    · simp [attentionScoresListGo, ha, hs] at ht
      rcases ht with rfl | ht
      · exact hsdp
      · exact ih (h + 1) ws hrest t ht
    · simp [attentionScoresListGo, ha, hs] at ht
      rcases ht with rfl | ht
      · exact hwma _
      · exact ih (h + 1) ws.tail hrest t ht
    · simp [attentionScoresListGo, ha] at ht
      rcases ht with rfl | ht
      · exact hzero
      · exact ih (h + 1) ws hrest t ht
    · simp [attentionScoresListGo, ha] at ht
      rcases ht with rfl | ht
      · exact hzero
      · exact ih (h + 1) ws hrest t ht

/-- C9: in a heterogeneous layer, every spectral (`"l"`) and
convolutional (`"c"`) head contributes the all-zero `[B, S, S]` score
placeholder to `attention_scores_list` (built before relative-position
bias and masking are added), every entry of the list has the same
`[B, S, S]` shape, and the stacked score tensor has shape
`[B, num_heads, S, S]`. -/
theorem C9_zero_score_placeholders (B H S D : Nat) (heads : List HeadSpec)
    (ws : List Mat) (q k : PTensor)
    (hq : q.shape = [B, H, S, D]) (hk : k.shape = [B, H, S, D])
    (hwf : ∀ x ∈ heads, WfHead x) (hlen : heads.length = H) (hpos : 0 < H) :
    (∀ (j : Nat) (hd : HeadSpec), heads.get? j = some hd →
      (hd.attn = "l" ∨ hd.attn = "c") →
      (attentionScoresList heads ws q k).get? j = some (ptZeros [B, S, S])) ∧
    (∀ t ∈ attentionScoresList heads ws q k, t.shape = [B, S, S]) ∧
    (heteroAttentionScores heads ws q k).shape = [B, H, S, S] := by
  have hzshape : (attentionScoresSize q).eraseIdx 1 = [B, S, S] := by
    simp [attentionScoresSize, hq]
  have hlen' : (attentionScoresList heads ws q k).length = H := by
    rw [attentionScoresList, scoresGo_length q k heads 0 ws hwf, hlen]
  refine ⟨?_, ?_, ?_⟩
  · intro j hd hj hlc
    rw [attentionScoresList, scoresGo_get_lc q k heads 0 ws j hd hwf hj hlc, hzshape]
  · intro t ht
    exact scoresGo_shapes q k B H S D hq hk heads 0 ws hwf t ht
  · have hne : attentionScoresList heads ws q k ≠ [] := by
      intro hnil
      rw [hnil] at hlen'
      simp at hlen'
      omega
    obtain ⟨t0, rest, hcons⟩ := List.exists_cons_of_ne_nil hne
    have ht0 : t0.shape = [B, S, S] := by
      apply scoresGo_shapes q k B H S D hq hk heads 0 ws hwf t0
      rw [← attentionScoresList, hcons]
      simp
    have hlen2 : (t0 :: rest).length = H := by rw [← hcons]; exact hlen'
    rw [heteroAttentionScores, hcons]
    simp only [stackDim1, List.headD_cons, ht0, hlen2]
    simp

/-- Witness for C9: two heads `[sa_sdp_1, l_dft_1]` over `[B, H, S, D] =
[1, 2, 2, 1]` query/key layers. -/
theorem C9_witness :
    ((ptZeros [1, 2, 2, 1]).shape = [1, 2, 2, 1] ∧
      (ptZeros [1, 2, 2, 1]).shape = [1, 2, 2, 1] ∧
      (∀ x ∈ [⟨"sa", "sdp", 1⟩, ⟨"l", "dft", 1⟩], WfHead x) ∧
      ([(⟨"sa", "sdp", 1⟩ : HeadSpec), ⟨"l", "dft", 1⟩] : List HeadSpec).length = 2 ∧
      0 < 2) ∧
    (attentionScoresList [⟨"sa", "sdp", 1⟩, ⟨"l", "dft", 1⟩] [] (ptZeros [1, 2, 2, 1])
        (ptZeros [1, 2, 2, 1])).get? 1 = some (ptZeros [1, 2, 2]) :=
  ⟨⟨rfl, rfl, by decide, rfl, by decide⟩,
    (C9_zero_score_placeholders 1 2 2 1 [⟨"sa", "sdp", 1⟩, ⟨"l", "dft", 1⟩] []
      (ptZeros [1, 2, 2, 1]) (ptZeros [1, 2, 2, 1]) rfl rfl (by decide) rfl
      (by decide)).1 1 ⟨"l", "dft", 1⟩ rfl (Or.inl rfl)⟩

/-- Helper: the homogeneous encoder loop preserves the number of target
layers. -/
theorem homGo_length (tc sc : HomConfig) (sls : List HomLayerParams) (m : Nat) :
    ∀ (tls : List HomLayerParams) (i : Nat),
      (homEncoderGo tc sc sls m i tls).1.length = tls.length := by
  intro tls
  induction tls with
  | nil => intro i; rfl
  | cons tl rest ih =>
    intro i
    by_cases him : i < m
    · by_cases hty : tc.attnType i = sc.attnType i
      · simp [homEncoderGo, him, hty, ih (i + 1)]
      · simp [homEncoderGo, him, hty]
    · simp [homEncoderGo, him]

/-- Helper: elementwise description of the homogeneous encoder loop.
Layer slot `j` (at absolute index `i + j`) receives the per-layer
transfer result exactly when it lies inside the loop range and no layer
up to it broke the loop with an attention-type mismatch; otherwise it is
untouched. -/
theorem homGo_get (tc sc : HomConfig) (sls : List HomLayerParams) (m : Nat) :
    ∀ (tls : List HomLayerParams) (i j : Nat), j < tls.length →
      (homEncoderGo tc sc sls m i tls).1.getD j default =
        if i + j < m ∧ (∀ k, k ≤ j → tc.attnType (i + k) = sc.attnType (i + k)) then
          (homTransferLayer tc sc m (i + j) (tls.getD j default) (sls.getD (i + j) default)).1
        else tls.getD j default := by
  intro tls
  induction tls with
  | nil => intro i j hj; simp at hj
  | cons tl rest ih =>
    intro i j hj
    by_cases him : i < m
    · by_cases hty : tc.attnType i = sc.attnType i
      · match j with
        | 0 =>
          have hcond : i + 0 < m ∧ ∀ k, k ≤ 0 → tc.attnType (i + k) = sc.attnType (i + k) := by
            refine ⟨by omega, ?_⟩
            intro k hk
            interval_cases k
            simpa using hty
          simp [homEncoderGo, him, hty, hcond]
        | j' + 1 =>
          have hj' : j' < rest.length := by simpa using hj
          have hrec := ih (i + 1) j' hj'
          have hiff : ((i + 1) + j' < m ∧
              (∀ k, k ≤ j' → tc.attnType ((i + 1) + k) = sc.attnType ((i + 1) + k))) ↔
              (i + (j' + 1) < m ∧
              (∀ k, k ≤ j' + 1 → tc.attnType (i + k) = sc.attnType (i + k))) := by
            constructor
            · rintro ⟨h1, h2⟩
              refine ⟨by omega, ?_⟩
              intro k hk
              match k with
              | 0 => simpa using hty
              | k' + 1 =>
                have := h2 k' (by omega)
                have harith : (i + 1) + k' = i + (k' + 1) := by omega
                rwa [harith] at this
            · rintro ⟨h1, h2⟩
              refine ⟨by omega, ?_⟩
              intro k hk
              have := h2 (k + 1) (by omega)
              have harith : i + (k + 1) = (i + 1) + k := by omega
              rwa [harith] at this
          by_cases hc : (i + 1) + j' < m ∧
              (∀ k, k ≤ j' → tc.attnType ((i + 1) + k) = sc.attnType ((i + 1) + k))
          · rw [if_pos hc] at hrec
            rw [if_pos (hiff.mp hc)]
            simp only [homEncoderGo, if_pos him, if_pos hty]
            have harith : (i + 1) + j' = i + (j' + 1) := by omega
            simpa [harith] using hrec
          · rw [if_neg hc] at hrec
            rw [if_neg (fun hcc => hc (hiff.mpr hcc))]
            simp only [homEncoderGo, if_pos him, if_pos hty]
            simpa using hrec
      · have hcond : ¬(i + j < m ∧ ∀ k, k ≤ j → tc.attnType (i + k) = sc.attnType (i + k)) := by
          rintro ⟨-, h2⟩
          exact hty (by simpa using h2 0 (by omega))
        simp [homEncoderGo, him, hty, hcond]
    · have hcond : ¬(i + j < m ∧ ∀ k, k ≤ j → tc.attnType (i + k) = sc.attnType (i + k)) := by
        rintro ⟨h1, -⟩
        omega
      simp [homEncoderGo, him, hcond]

/-- Helper: between identical configs the per-layer transfer loads the
attention and intermediate blocks, and the output block exactly when a
next in-range layer exists. -/
theorem homTransferLayer_identical (c : HomConfig) (m i : Nat)
    (tl sl : HomLayerParams) :
    homTransferLayer c c m i tl sl =
      if i + 1 < m then
        (⟨sl.attention, sl.intermediate, sl.output⟩,
          attnSdLen c.position_embedding_type (c.layers.getD i default) +
            interSdLen (c.layers.getD i default) + outputSdLen c i)
      else
        (⟨sl.attention, sl.intermediate, tl.output⟩,
          attnSdLen c.position_embedding_type (c.layers.getD i default) +
            interSdLen (c.layers.getD i default)) := by
  by_cases hnext : i + 1 < m
  · simp [homTransferLayer, hnext]
  · simp [homTransferLayer, hnext]

/-- Helper: the `count` of the homogeneous encoder loop between identical
configs. -/
theorem homGo_id_count (c : HomConfig) (sls : List HomLayerParams) :
    ∀ (tls : List HomLayerParams) (i : Nat), i + tls.length ≤ c.numLayers →
      (homEncoderGo c c sls c.numLayers i tls).2 = homIdCount c i tls.length := by
  intro tls
  induction tls with
  | nil => intro i _; rfl
  | cons tl rest ih =>
    intro i hle
    have him : i < c.numLayers := by
      simp only [List.length_cons] at hle
      omega
    have hrec := ih (i + 1) (by simp only [List.length_cons] at hle; omega)
    by_cases hnext : i + 1 < c.numLayers
    all_goals
      simp [homEncoderGo, him, homTransferLayer_identical, hnext, hrec,
        List.length_cons, homIdCount]
    all_goals omega

/-- Helper: the identical-config `count` differs from the encoder
state-dict size by exactly the last layer's output block size, 4. -/
theorem homIdCount_add_four (c : HomConfig) :
    ∀ (r i : Nat), i + r = c.numLayers → 0 < r →
      homIdCount c i r + 4 = encoderSdLenGo c i r := by
  intro r
  induction r with
  | zero => intro i _ h; omega
  | succ r' ih =>
    intro i hir _
    cases r' with
    | zero =>
      have hlast : ¬(i + 1 < c.numLayers) := by omega
      have hout : outputSdLen c i = 4 := by
        unfold outputSdLen
        rw [if_neg (by rintro ⟨h1, -⟩; omega)]
      simp only [homIdCount, encoderSdLenGo, hout]
      all_goals rw [if_neg hlast]
      all_goals omega
    | succ r'' =>
      have hnext : i + 1 < c.numLayers := by omega
      have hrec := ih (i + 1) (by omega) (by omega)
      simp only [homIdCount, encoderSdLenGo] at hrec ⊢
      rw [if_pos hnext]
      omega

/-- C1 (amended): with identical configurations the homogeneous transfer
copies the embeddings and, for every layer, the attention and
intermediate blocks from the source; the output block is copied for every
layer except the last, whose output block keeps the target's
initialization; the returned coverage equals
`(total - 4) / total` — the 4 uncopied entries being the last layer's
output `dense` weight/bias and `LayerNorm` weight/bias — rather than
`1.0`. -/
theorem C1_amended_identical_transfer (mode : String) (rpFit : Nat → Mat → Mat)
    (t s : HomModel) (hcfg : t.cfg = s.cfg)
    (hlt : t.layers.length = t.cfg.numLayers) (hn : 0 < t.cfg.numLayers) :
    (load_model_from_source_hom mode rpFit t s).2 =
        ((embSdLen + encoderSdLen t.cfg - 4 : Nat) : ℚ) /
          ((embSdLen + encoderSdLen t.cfg : Nat) : ℚ) ∧
    (load_model_from_source_hom mode rpFit t s).1.embeddings = s.embeddings ∧
    (∀ i, i < t.cfg.numLayers →
      ((load_model_from_source_hom mode rpFit t s).1.layers.getD i default).attention =
          (s.layers.getD i default).attention ∧
      ((load_model_from_source_hom mode rpFit t s).1.layers.getD i default).intermediate =
          (s.layers.getD i default).intermediate ∧
      (i + 1 < t.cfg.numLayers →
        ((load_model_from_source_hom mode rpFit t s).1.layers.getD i default).output =
          (s.layers.getD i default).output) ∧
      (i + 1 = t.cfg.numLayers →
        ((load_model_from_source_hom mode rpFit t s).1.layers.getD i default).output =
          (t.layers.getD i default).output)) := by
  obtain ⟨tc, te, tl⟩ := t
  obtain ⟨sc, se, sl⟩ := s
  dsimp only at hcfg hlt hn ⊢
  subst hcfg
  have hemb : transferEmbeddings mode rpFit (tc.hiddenDim 0) (tc.hiddenDim 0) te se =
      (se, embSdLen) := by
    simp [transferEmbeddings]
  have hcount : (homEncoderGo tc tc sl (min tc.numLayers tc.numLayers) 0 tl).2 =
      homIdCount tc 0 tl.length := by
    rw [min_self]
    exact homGo_id_count tc sl tl 0 (by omega)
  have hfour : homIdCount tc 0 tl.length + 4 = encoderSdLen tc := by
    rw [encoderSdLen, ← hlt]
    exact homIdCount_add_four tc tl.length 0 (by omega) (by omega)
  refine ⟨?_, ?_, ?_⟩
  · show (((transferEmbeddings mode rpFit (tc.hiddenDim 0) (tc.hiddenDim 0) te se).2 +
        (homEncoderGo tc tc sl (min tc.numLayers tc.numLayers) 0 tl).2 : Nat) : ℚ) /
        ((embSdLen + encoderSdLen tc : Nat) : ℚ) = _
    rw [hemb, hcount]
    have h4 : ((se, embSdLen).2 + homIdCount tc 0 tl.length) =
        embSdLen + encoderSdLen tc - 4 := by
      show embSdLen + homIdCount tc 0 tl.length = embSdLen + encoderSdLen tc - 4
      omega
    rw [h4]
  · show (transferEmbeddings mode rpFit (tc.hiddenDim 0) (tc.hiddenDim 0) te se).1 = se
    rw [hemb]
  · intro i hi
    have hlay : (load_model_from_source_hom mode rpFit ⟨tc, te, tl⟩ ⟨tc, se, sl⟩).1.layers =
        (homEncoderGo tc tc sl (min tc.numLayers tc.numLayers) 0 tl).1 := rfl
    rw [hlay]
    have hget := homGo_get tc tc sl (min tc.numLayers tc.numLayers) tl 0 i (by omega)
    have hcond : (0 + i < min tc.numLayers tc.numLayers ∧
        ∀ k, k ≤ i → tc.attnType (0 + k) = tc.attnType (0 + k)) := by
      exact ⟨by simp only [min_self]; omega, fun k _ => rfl⟩
    rw [if_pos hcond, homTransferLayer_identical] at hget
    by_cases hnext : i + 1 < tc.numLayers
    · rw [if_pos (by simp only [min_self]; omega :
          0 + i + 1 < min tc.numLayers tc.numLayers)] at hget
      rw [hget]
      simp only [Nat.zero_add]
      refine ⟨?_, ?_, ?_, ?_⟩ <;> first | trivial | (intro habs; first | trivial | omega)
    · rw [if_neg (by simp only [min_self]; omega :
          ¬(0 + i + 1 < min tc.numLayers tc.numLayers))] at hget
      rw [hget]
      simp only [Nat.zero_add]
      refine ⟨?_, ?_, ?_, ?_⟩ <;> first | trivial | (intro habs; first | trivial | omega)

/-- C1 counterexample: two models over the identical one-layer config
`homCfg1`; the transfer returns coverage `21 / 25 ≠ 1` and leaves the
(only) layer's output block at the target's initialization (0) instead of
the source's values (1). -/
theorem C1_counterexample :
    homT1.cfg = homS1.cfg ∧
    (load_model_from_source_hom "OD" rpId homT1 homS1).2 ≠ 1 ∧
    ((load_model_from_source_hom "OD" rpId homT1 homS1).1.layers.getD 0
        default).output 0 = 0 ∧
    (homS1.layers.getD 0 default).output 0 = 1 := by
  refine ⟨rfl, ?_, ?_, ?_⟩
  · show ((21 : Nat) : ℚ) / ((25 : Nat) : ℚ) ≠ 1
    norm_num
  · rfl
  · rfl

/-- Witness for C1's amended statement at the concrete identical-config
pair `homT1`/`homS1`: coverage `21 / 25` and the last layer's output
block left at initialization. -/
theorem C1_amended_witness :
    (homT1.cfg = homS1.cfg ∧ homT1.layers.length = homT1.cfg.numLayers ∧
      0 < homT1.cfg.numLayers) ∧
    (load_model_from_source_hom "OD" rpId homT1 homS1).2 =
      ((embSdLen + encoderSdLen homT1.cfg - 4 : Nat) : ℚ) /
        ((embSdLen + encoderSdLen homT1.cfg : Nat) : ℚ) :=
  ⟨⟨rfl, rfl, by decide⟩,
    (C1_amended_identical_transfer "OD" rpId homT1 homS1 rfl rfl (by decide)).1⟩

/-- C2 (amended): in homogeneous mode, only an attention-type mismatch at
layer `i` aborts the transfer for layer `i` and every later layer; a
mismatch of hidden width, head count or similarity type at layer `i`
(with matching attention types) leaves layer `i` at its initialization
but the loop continues, and every later in-range layer whose attention
types matched so far still receives its per-layer transfer. -/
theorem C2_amended_mismatch_policy (mode : String) (rpFit : Nat → Mat → Mat)
    (t s : HomModel) (i : Nat) :
    ((i < min t.cfg.numLayers s.cfg.numLayers → t.cfg.attnType i ≠ s.cfg.attnType i →
      ∀ j, i ≤ j →
        (load_model_from_source_hom mode rpFit t s).1.layers.getD j default =
          t.layers.getD j default) ∧
     ((∀ k, k ≤ i → t.cfg.attnType k = s.cfg.attnType k) →
      i < min t.cfg.numLayers s.cfg.numLayers → i < t.layers.length →
      ¬(t.cfg.hiddenDim i = s.cfg.hiddenDim i ∧
        (t.cfg.layers.getD i default).attention_heads =
          (s.cfg.layers.getD i default).attention_heads ∧
        (t.cfg.layers.getD i default).similarity =
          (s.cfg.layers.getD i default).similarity) →
      (load_model_from_source_hom mode rpFit t s).1.layers.getD i default =
        t.layers.getD i default) ∧
     (∀ j, j < min t.cfg.numLayers s.cfg.numLayers → j < t.layers.length →
      (∀ k, k ≤ j → t.cfg.attnType k = s.cfg.attnType k) →
      (load_model_from_source_hom mode rpFit t s).1.layers.getD j default =
        (homTransferLayer t.cfg s.cfg (min t.cfg.numLayers s.cfg.numLayers) j
          (t.layers.getD j default) (s.layers.getD j default)).1)) := by
  have hlay : (load_model_from_source_hom mode rpFit t s).1.layers =
      (homEncoderGo t.cfg s.cfg s.layers (min t.cfg.numLayers s.cfg.numLayers)
        0 t.layers).1 := rfl
  refine ⟨?_, ?_, ?_⟩
  · intro him hmis j hij
    rw [hlay]
    by_cases hjl : j < t.layers.length
    · have hget := homGo_get t.cfg s.cfg s.layers (min t.cfg.numLayers s.cfg.numLayers)
        t.layers 0 j hjl
      simp only [Nat.zero_add] at hget
      rw [if_neg ?_] at hget
      · exact hget
      · rintro ⟨-, hall⟩
        exact hmis (hall i hij)
    · have hlen := homGo_length t.cfg s.cfg s.layers (min t.cfg.numLayers s.cfg.numLayers)
        t.layers 0
      rw [List.getD_eq_default _ _ (by omega), List.getD_eq_default _ _ (by omega)]
  · intro hmatch him hil hinner
    rw [hlay]
    have hget := homGo_get t.cfg s.cfg s.layers (min t.cfg.numLayers s.cfg.numLayers)
      t.layers 0 i hil
    simp only [Nat.zero_add] at hget
    rw [if_pos ⟨him, hmatch⟩] at hget
    rw [hget, homTransferLayer]
    rw [if_neg hinner]
  · intro j hjm hjl hmatch
    rw [hlay]
    have hget := homGo_get t.cfg s.cfg s.layers (min t.cfg.numLayers s.cfg.numLayers)
      t.layers 0 j hjl
    simp only [Nat.zero_add] at hget
    rw [if_pos ⟨hjm, hmatch⟩] at hget
    exact hget

/-- C2 counterexample: `homT2`/`homS2` agree on layer 0's attention type
(`"sa"`) but disagree on its similarity (`"sdp"` vs `"wma"`); the claim
says this mismatch must leave layer 1 at initialization too, yet the
transfer copies layer 1's attention block from the source (value 1, not
the target's initial 0). -/
theorem C2_counterexample :
    homT2.cfg.attnType 0 = homS2.cfg.attnType 0 ∧
    (homT2.cfg.layers.getD 0 default).similarity ≠
      (homS2.cfg.layers.getD 0 default).similarity ∧
    ((load_model_from_source_hom "OD" rpId homT2 homS2).1.layers.getD 1
        default).attention 0 = 1 ∧
    (homT2.layers.getD 1 default).attention 0 = 0 := by
  refine ⟨rfl, by decide, rfl, rfl⟩

/-- Witness for C2's amended statement: the break behaviour on an
attention-type mismatch (`homT2` vs `homS2b`, mismatch at layer 0, layer 1
untouched), the skip-and-continue behaviour on a similarity mismatch
(`homT2` vs `homS2`, layer 0 untouched), and the per-layer transfer of the
later matching layer. -/
theorem C2_amended_witness :
    ((load_model_from_source_hom "OD" rpId homT2 homS2b).1.layers.getD 1 default =
      homT2.layers.getD 1 default) ∧
    ((load_model_from_source_hom "OD" rpId homT2 homS2).1.layers.getD 0 default =
      homT2.layers.getD 0 default) ∧
    ((load_model_from_source_hom "OD" rpId homT2 homS2).1.layers.getD 1 default =
      (homTransferLayer homT2.cfg homS2.cfg
        (min homT2.cfg.numLayers homS2.cfg.numLayers) 1
        (homT2.layers.getD 1 default) (homS2.layers.getD 1 default)).1) :=
  ⟨(C2_amended_mismatch_policy "OD" rpId homT2 homS2b 0).1 (by decide) (by decide)
      1 (by decide),
   (C2_amended_mismatch_policy "OD" rpId homT2 homS2 0).2.1
      (fun k hk => by interval_cases k; rfl) (by decide) (by decide) (by decide),
   (C2_amended_mismatch_policy "OD" rpId homT2 homS2 0).2.2
      1 (by decide) (by decide) (fun k hk => by interval_cases k <;> rfl)⟩

/-- Helper: with `debug = False` the `if debug:` block is skipped
entirely. -/
theorem hetQKVDebugStep_not_debug (ctx : HetHeadCtx) (j : Nat) (tl : HetLayerParams)
    (h : ctx.debug = false) : hetQKVDebugStep ctx j tl = tl := by
  simp [hetQKVDebugStep, h]

/-- Helper: the bilinear transfer step never writes the query/key/value
projections. -/
theorem hetWmaStep_qkv (ctx : HetHeadCtx) (wmaC : Nat) (tl : HetLayerParams) :
    qkvOf (hetWmaStep ctx wmaC tl).1.1.selfAttn = qkvOf tl.selfAttn := by
  simp only [hetWmaStep]
  split
  · simp [qkvOf]
  · split
    · split <;> simp [qkvOf]
    · split <;> simp [qkvOf]

/-- Helper: the convolutional transfer step never writes the
query/key/value projections. -/
theorem hetConvStep_qkv (ctx : HetHeadCtx) (j convC : Nat) (tl : HetLayerParams) :
    qkvOf (hetConvStep ctx j convC tl).1.1.selfAttn = qkvOf tl.selfAttn := by
  simp only [hetConvStep]
  split
  · simp [qkvOf]
  · split
    · simp [qkvOf]
    · split <;> simp [qkvOf]

/-- Helper: the variant dispatch never writes the query/key/value
projections. -/
theorem hetVariantStep_qkv (ctx : HetHeadCtx) (j wmaC convC : Nat) (tl : HetLayerParams) :
    qkvOf (hetVariantStep ctx j wmaC convC tl).1.1.selfAttn = qkvOf tl.selfAttn := by
  simp only [hetVariantStep]
  split
  · exact hetWmaStep_qkv ctx wmaC tl
  · split
    · exact hetConvStep_qkv ctx j convC tl
    · rfl

/-- Helper: the per-head attention output step never writes the
self-attention block at all. -/
theorem hetAttnOutputStep_selfAttn (ctx : HetHeadCtx) (j : Nat) (tl : HetLayerParams) :
    (hetAttnOutputStep ctx j tl).1.selfAttn = tl.selfAttn := by
  simp only [hetAttnOutputStep]
  split
  · rfl
  · split
    · split <;> rfl
    · split <;> rfl

/-- Helper: with `debug = False` one head-loop iteration never writes the
query/key/value projections. -/
theorem hetHeadStep_qkv (ctx : HetHeadCtx) (j : Nat) (st : HetLayerParams × Nat × Nat)
    (h : ctx.debug = false) :
    qkvOf (hetHeadStep ctx j st).1.1.selfAttn = qkvOf st.1.selfAttn := by
  simp only [hetHeadStep]
  split
  · rw [hetQKVDebugStep_not_debug ctx j st.1 h]
    split
    · exact hetVariantStep_qkv ctx j st.2.1 st.2.2 st.1
    · rw [show ∀ x : HetLayerParams × Nat × Nat, qkvOf x.1.selfAttn = qkvOf x.1.selfAttn
        from fun _ => rfl]
      calc qkvOf (hetAttnOutputStep ctx j
            (hetVariantStep ctx j st.2.1 st.2.2 st.1).1.1).1.selfAttn
          = qkvOf (hetVariantStep ctx j st.2.1 st.2.2 st.1).1.1.selfAttn := by
            rw [hetAttnOutputStep_selfAttn]
        _ = qkvOf st.1.selfAttn := hetVariantStep_qkv ctx j st.2.1 st.2.2 st.1
  · calc qkvOf (hetAttnOutputStep ctx j st.1).1.selfAttn
        = qkvOf st.1.selfAttn := by rw [hetAttnOutputStep_selfAttn]

/-- Helper: with `debug = False` the whole head loop never writes the
query/key/value projections. -/
theorem hetHeadLoop_qkv (ctx : HetHeadCtx) (h : ctx.debug = false) :
    ∀ (js : List Nat) (st : HetLayerParams × Nat × Nat),
      qkvOf (hetHeadLoop ctx js st).1.1.selfAttn = qkvOf st.1.selfAttn := by
  intro js
  induction js with
  | nil => intro st; rfl
  | cons j rest ih =>
    intro st
    simp only [hetHeadLoop]
    split
    · rw [ih, hetHeadStep_qkv ctx j st h]
    · exact hetHeadStep_qkv ctx j st h

/-- Helper: the feed-forward stage loop never writes the self-attention
block. -/
theorem hetFfLoop_selfAttn (tc sc : HetLayerCfg) (sl : HetLayerParams) :
    ∀ (fs : List Nat) (tl : HetLayerParams),
      (hetFfLoop tc sc sl fs tl).selfAttn = tl.selfAttn := by
  intro fs
  induction fs with
  | nil => intro tl; rfl
  | cons f rest ih =>
    intro tl
    simp only [hetFfLoop]
    rw [ih]

/-- Helper: the distance-embedding step never writes the query/key/value
projections. -/
theorem hetDistanceStep_qkv (mode : String) (rpFit : Nat → Mat → Mat)
    (lah ahs sAhs : Nat) (sl tl : HetLayerParams) :
    qkvOf (hetDistanceStep mode rpFit lah ahs sAhs sl tl).selfAttn = qkvOf tl.selfAttn := by
  simp only [hetDistanceStep]
  split
  · rfl
  · split <;> rfl

/-- Helper: the per-layer post steps never write the self-attention
block. -/
theorem hetPostSteps_selfAttn (mode : String) (rpFit : Nat → Mat → Mat) (lh : Nat)
    (tc sc : HetLayerCfg) (sl tl1 : HetLayerParams) :
    (hetPostSteps mode rpFit lh tc sc sl tl1).selfAttn = tl1.selfAttn := by
  simp only [hetPostSteps]
  repeat' split
  all_goals simp [hetFfLoop_selfAttn]

/-- Helper: with `debug = False` the per-layer transfer never writes the
query/key/value projections. -/
theorem hetTransferLayer_qkv (mode : String) (rpFit : Nat → Mat → Mat)
    (heap : WHeap) (tc sc : HetLayerCfg) (sl tl : HetLayerParams) :
    qkvOf (hetTransferLayer mode false rpFit heap tc sc sl tl).1.selfAttn =
      qkvOf tl.selfAttn := by
  have hdbg : (hetMkCtx mode false rpFit heap tc sc sl).debug = false := rfl
  simp only [hetTransferLayer]
  split
  · -- an exception inside the head loop: the partial layer is returned
    calc qkvOf (hetHeadLoop _ _ _).1.1.selfAttn
        = qkvOf (hetDistanceStep mode rpFit (hetMkCtx mode false rpFit heap tc sc sl).lah
            (hetMkCtx mode false rpFit heap tc sc sl).ahs
            (hetMkCtx mode false rpFit heap tc sc sl).sAhs sl tl, 0,
            0).1.selfAttn := hetHeadLoop_qkv _ hdbg _ _
      _ = qkvOf tl.selfAttn := hetDistanceStep_qkv _ _ _ _ _ _ _
  · rw [hetPostSteps_selfAttn]
    calc qkvOf (hetHeadLoop _ _ _).1.1.selfAttn
        = qkvOf (hetDistanceStep mode rpFit (hetMkCtx mode false rpFit heap tc sc sl).lah
            (hetMkCtx mode false rpFit heap tc sc sl).ahs
            (hetMkCtx mode false rpFit heap tc sc sl).sAhs sl tl, 0,
            0).1.selfAttn := hetHeadLoop_qkv _ hdbg _ _
      _ = qkvOf tl.selfAttn := hetDistanceStep_qkv _ _ _ _ _ _ _

/-- Helper: with `debug = False` the heterogeneous encoder walk never
writes any layer's query/key/value projections, whether or not an
exception interrupts it. -/
theorem hetEncoderGo_qkv (mode : String) (rpFit : Nat → Mat → Mat) (heap : WHeap)
    (tcfg scfg : HetConfig) (sLayers : List HetLayerParams) (m : Nat) :
    ∀ (tls : List HetLayerParams) (i j : Nat),
      qkvOf (((hetEncoderGo mode false rpFit heap tcfg scfg sLayers m i tls).1.getD j
        default).selfAttn) = qkvOf ((tls.getD j default).selfAttn) := by
  intro tls
  induction tls with
  | nil => intro i j; rfl
  | cons tl rest ih =>
    intro i j
    simp only [hetEncoderGo]
    by_cases him : i < m
    · rw [if_pos him]
      split
      · match j with
        | 0 =>
          simp only [List.getD_cons_zero]
          exact hetTransferLayer_qkv mode rpFit heap _ _ _ tl
        | j' + 1 =>
          simp only [List.getD_cons_succ]
          exact ih (i + 1) j'
      · match j with
        | 0 =>
          simp only [List.getD_cons_zero]
          exact hetTransferLayer_qkv mode rpFit heap _ _ _ tl
        | j' + 1 => rfl
    · rw [if_neg him]

/-- C3: in heterogeneous mode, for every call of `load_model_from_source`
with `debug` left at its default `False`, every layer's query, key and
value weights and biases keep their pre-transfer values — the per-head
q/k/v slice assignments (lines 1693-1724) sit inside the `if debug:`
block, so they never run. -/
theorem C3_qkv_untouched_when_not_debug (mode : String) (rpFit : Nat → Mat → Mat)
    (heap : WHeap) (t s : HetModel) (i : Nat) :
    qkvOf (((load_model_from_source_het mode false rpFit heap t s).1.layers.getD i
      default).selfAttn) = qkvOf ((t.layers.getD i default).selfAttn) :=
  hetEncoderGo_qkv mode rpFit heap t.cfg s.cfg s.layers
    (min t.cfg.layers.length s.cfg.layers.length) t.layers 0 i

/-- Helper: the matched-`wma` transfer with differing head sizes raises —
a `NameError` on the unbound name `source` in `OD` mode (line 1735), an
`AttributeError` on `torch.from_nump` otherwise (line 1739). -/
theorem hetWmaStep_raises (ctx : HetHeadCtx) (wmaC : Nat) (tl : HetLayerParams)
    (hne : ctx.ahs ≠ ctx.sAhs) :
    (hetWmaStep ctx wmaC tl).2 =
      some (if ctx.mode = "OD" then PyExc.nameError "source"
        else PyExc.attributeError "torch" "from_nump") := by
  have hsrc : evalFreeName "source" = .error (.nameError "source") := rfl
  have hnump : getTorchAttr "from_nump" = .error (.attributeError "torch" "from_nump") := rfl
  by_cases hmode : ctx.mode = "OD"
  · simp [hetWmaStep, hne, hmode, hsrc]
  · simp [hetWmaStep, hne, hmode, hnump]

/-- Helper: the variant dispatch forwards the bilinear case's
exception. -/
theorem hetVariantStep_wma (ctx : HetHeadCtx) (j wmaC convC : Nat) (tl : HetLayerParams)
    (hsimT : (ctx.tHeads.getD j default).sim = "wma")
    (hsimS : (ctx.sHeads.getD j default).sim = "wma") :
    (hetVariantStep ctx j wmaC convC tl).2 = (hetWmaStep ctx wmaC tl).2 := by
  simp only [hetVariantStep]
  rw [if_pos (⟨hsimT, hsimS⟩ : _ ∧ _)]

/-- Helper: a head-loop iteration at a matched `wma` head with differing
head sizes returns the raised exception. -/
theorem hetHeadStep_raises (ctx : HetHeadCtx) (j : Nat) (st : HetLayerParams × Nat × Nat)
    (hattn : (ctx.tHeads.getD j default).attn = (ctx.sHeads.getD j default).attn)
    (hsimT : (ctx.tHeads.getD j default).sim = "wma")
    (hsimS : (ctx.sHeads.getD j default).sim = "wma")
    (hne : ctx.ahs ≠ ctx.sAhs) :
    (hetHeadStep ctx j st).2 =
      some (if ctx.mode = "OD" then PyExc.nameError "source"
        else PyExc.attributeError "torch" "from_nump") := by
  have hv := hetVariantStep_wma ctx j st.2.1 st.2.2 (hetQKVDebugStep ctx j st.1) hsimT hsimS
  rw [hetWmaStep_raises ctx st.2.1 (hetQKVDebugStep ctx j st.1) hne] at hv
  simp only [hetHeadStep, if_pos hattn]
  split
  · next e heq => rw [hv] at heq; simpa using heq.symm
  · next heq => rw [hv] at heq; simp at heq

/-- Helper: if the head loop finished without an exception, every index
it visited admits a state on which the head step raised nothing. -/
theorem hetHeadLoop_none (ctx : HetHeadCtx) :
    ∀ (js : List Nat) (st : HetLayerParams × Nat × Nat),
      (hetHeadLoop ctx js st).2 = none →
      ∀ j ∈ js, ∃ st', (hetHeadStep ctx j st').2 = none := by
  intro js
  induction js with
  | nil => intro st _ j hj; simp at hj
  | cons j0 rest ih =>
    intro st hnone j hj
    simp only [hetHeadLoop] at hnone
    rcases hmem : (hetHeadStep ctx j0 st).2 with _ | e
    · rw [hmem] at hnone
      rcases List.mem_cons.mp hj with rfl | hjr
      · exact ⟨st, hmem⟩
      · exact ih _ hnone j hjr
    · rw [hmem] at hnone
      simp at hnone

/-- Helper: a layer transfer that finished without an exception had an
exception-free head loop. -/
theorem hetTransferLayer_none (mode : String) (debug : Bool) (rpFit : Nat → Mat → Mat)
    (heap : WHeap) (tc sc : HetLayerCfg) (sl tl : HetLayerParams)
    (h : (hetTransferLayer mode debug rpFit heap tc sc sl tl).2 = none) :
    (hetHeadLoop (hetMkCtx mode debug rpFit heap tc sc sl)
      (List.range (min tc.heads.length sc.heads.length))
      (hetDistanceStep mode rpFit (hetMkCtx mode debug rpFit heap tc sc sl).lah
        (hetMkCtx mode debug rpFit heap tc sc sl).ahs
        (hetMkCtx mode debug rpFit heap tc sc sl).sAhs sl tl, 0, 0)).2 = none := by
  simp only [hetTransferLayer] at h
  split at h
  · simp at h
  · next heq => exact heq

/-- Helper: if the encoder walk finished without an exception, every
in-range layer admits a state on which the per-layer transfer raised
nothing. -/
theorem hetEncoderGo_none (mode : String) (debug : Bool) (rpFit : Nat → Mat → Mat)
    (heap : WHeap) (tcfg scfg : HetConfig) (sLayers : List HetLayerParams) (m : Nat) :
    ∀ (tls : List HetLayerParams) (i : Nat),
      (hetEncoderGo mode debug rpFit heap tcfg scfg sLayers m i tls).2 = none →
      ∀ d, d < tls.length → i + d < m →
        ∃ tl', (hetTransferLayer mode debug rpFit heap (tcfg.layers.getD (i + d) default)
          (scfg.layers.getD (i + d) default) (sLayers.getD (i + d) default) tl').2 = none := by
  intro tls
  induction tls with
  | nil => intro i _ d hd _; simp at hd
  | cons tl rest ih =>
    intro i hnone d hd him
    simp only [hetEncoderGo] at hnone
    by_cases hi : i < m
    · rw [if_pos hi] at hnone
      rcases hmem : (hetTransferLayer mode debug rpFit heap (tcfg.layers.getD i default)
          (scfg.layers.getD i default) (sLayers.getD i default) tl).2 with _ | e
      · rw [hmem] at hnone
        simp only [List.length_cons] at hd
        have hnone' : (hetEncoderGo mode debug rpFit heap tcfg scfg sLayers m
            (i + 1) rest).2 = none := by simpa using hnone
        match d with
        | 0 => exact ⟨tl, hmem⟩
        | d' + 1 =>
          have hrec := ih (i + 1) hnone' d' (by omega) (by omega)
          have harith : i + 1 + d' = i + (d' + 1) := by omega
          rw [harith] at hrec
          exact hrec
      · rw [hmem] at hnone
        simp at hnone
    · omega

/-- C8: a heterogeneous transfer whose source and target have a matching
bilinear (`wma`) head at the same index of some common layer but
differing attention head sizes raises instead of completing; the raised
step's exception is the `NameError` on the unbound name `source` in `OD`
mode and the `AttributeError` on the nonexistent `torch.from_nump` in
`RP` mode. -/
theorem C8_wma_size_mismatch_raises (mode : String) (debug : Bool)
    (rpFit : Nat → Mat → Mat) (heap : WHeap) (t s : HetModel) (i j : Nat)
    (hil : i < t.layers.length)
    (him : i < min t.cfg.layers.length s.cfg.layers.length)
    (hjm : j < min (t.cfg.layers.getD i default).heads.length
      (s.cfg.layers.getD i default).heads.length)
    (hattn : ((t.cfg.layers.getD i default).heads.getD j default).attn =
      ((s.cfg.layers.getD i default).heads.getD j default).attn)
    (hsimT : ((t.cfg.layers.getD i default).heads.getD j default).sim = "wma")
    (hsimS : ((s.cfg.layers.getD i default).heads.getD j default).sim = "wma")
    (hsize : ((t.cfg.layers.getD i default).heads.getD 0 default).size ≠
      ((s.cfg.layers.getD i default).heads.getD 0 default).size) :
    (load_model_from_source_het mode debug rpFit heap t s).2.2 ≠ none ∧
    (∀ (wmaC : Nat) (tl : HetLayerParams) (sl : HetLayerParams),
      (hetWmaStep (hetMkCtx mode debug rpFit heap (t.cfg.layers.getD i default)
        (s.cfg.layers.getD i default) sl) wmaC tl).2 =
      some (if mode = "OD" then PyExc.nameError "source"
        else PyExc.attributeError "torch" "from_nump")) := by
  have hctxne : ∀ sl : HetLayerParams,
      (hetMkCtx mode debug rpFit heap (t.cfg.layers.getD i default)
        (s.cfg.layers.getD i default) sl).ahs ≠
      (hetMkCtx mode debug rpFit heap (t.cfg.layers.getD i default)
        (s.cfg.layers.getD i default) sl).sAhs := fun _ => hsize
  constructor
  · intro hnone
    have hgo : (hetEncoderGo mode debug rpFit heap t.cfg s.cfg s.layers
        (min t.cfg.layers.length s.cfg.layers.length) 0 t.layers).2 = none := hnone
    obtain ⟨tl', hlayer⟩ := hetEncoderGo_none mode debug rpFit heap t.cfg s.cfg s.layers
      (min t.cfg.layers.length s.cfg.layers.length) t.layers 0 hgo i hil
      (by omega)
    rw [Nat.zero_add] at hlayer
    have hloop := hetTransferLayer_none mode debug rpFit heap _ _ _ _ hlayer
    obtain ⟨st', hstep⟩ := hetHeadLoop_none _ _ _ hloop j (List.mem_range.mpr hjm)
    rw [hetHeadStep_raises _ _ _ hattn hsimT hsimS (hctxne _)] at hstep
    simp at hstep
  · intro wmaC tl sl
    exact hetWmaStep_raises _ wmaC tl (hctxne sl)

/-- Witness for C8: `hetT8` vs `hetS8` (one matched `sa_wma` head, sizes
4 vs 8) in `OD` mode; the full transfer does not complete. -/
theorem C8_witness :
    (0 < hetT8.layers.length ∧
      0 < min hetT8.cfg.layers.length hetS8.cfg.layers.length ∧
      0 < min (hetT8.cfg.layers.getD 0 default).heads.length
        (hetS8.cfg.layers.getD 0 default).heads.length ∧
      ((hetT8.cfg.layers.getD 0 default).heads.getD 0 default).size ≠
        ((hetS8.cfg.layers.getD 0 default).heads.getD 0 default).size) ∧
    (load_model_from_source_het "OD" false rpId heap8 hetT8 hetS8).2.2 ≠ none :=
  ⟨⟨by decide, by decide, by decide, by decide⟩,
    (C8_wma_size_mismatch_raises "OD" false rpId heap8 hetT8 hetS8 0 0 (by decide)
      (by decide) (by decide) (by decide) (by decide) (by decide) (by decide)).1⟩

/-- C4 (failing input): heterogeneous transfer of `hetS4` (heads
`[l_dft_4, sa_wma_4]`) into `hetT4` (heads `[sa_wma_4, sa_wma_4]`) with
`debug = False`.  Head 0's types mismatch (`sa` vs `l`), so by the claim
none of head 0's parameters may change; but because `wma_count` counts
matched pairs instead of the target's `wma` attribute positions, the
transfer of matched head 1 executes
`setattr(self, 'W0', getattr(source, 'W0'))` and overwrites `W0` — the
bilinear parameter of the mismatched head 0 — whose value changes from
its initialization 0 to the source's 2.  The transfer completes without
an exception. -/
theorem C4_wma_count_misalignment :
    ((hetT4.cfg.layers.getD 0 default).heads.getD 0 default).attn ≠
      ((hetS4.cfg.layers.getD 0 default).heads.getD 0 default).attn ∧
    (load_model_from_source_het "OD" false rpId heap4 hetT4 hetS4).2.2 = none ∧
    ((load_model_from_source_het "OD" false rpId heap4 hetT4 hetS4).1.layers.getD 0
        default).selfAttn.wRefs = [2, 1] ∧
    heapRead heap4
      (((load_model_from_source_het "OD" false rpId heap4 hetT4 hetS4).1.layers.getD 0
        default).selfAttn.wRefs.getD 0 0) 0 0 = 2 ∧
    heapRead heap4 ((hetT4.layers.getD 0 default).selfAttn.wRefs.getD 0 0) 0 0 = 0 := by
  refine ⟨by decide, rfl, by decide, rfl, rfl⟩

/-- C5 counterexample: `RP`-mode transfer of `hetS5` (conv head `c_5_8`)
into `hetT5` (conv head `c_3_4`): both the kernel size and the head size
differ, yet the transfer completes without raising any exception and
silently copies the overlapping conv parameters (the target's
`conv_out_layer` bias entry 0 becomes the source's value 1 instead of its
initialization 0). -/
theorem C5_counterexample :
    ((hetT5.cfg.layers.getD 0 default).heads.getD 0 default).size ≠
      ((hetS5.cfg.layers.getD 0 default).heads.getD 0 default).size ∧
    ((hetT5.cfg.layers.getD 0 default).heads.getD 0 default).sim ≠
      ((hetS5.cfg.layers.getD 0 default).heads.getD 0 default).sim ∧
    (load_model_from_source_het "RP" false rpId [] hetT5 hetS5).2.2 = none ∧
    (((load_model_from_source_het "RP" false rpId [] hetT5 hetS5).1.layers.getD 0
        default).selfAttn.convs.getD 0 default).conv_out_bias 0 = 1 ∧
    (((hetT5.layers.getD 0 default).selfAttn.convs.getD 0 default).conv_out_bias 0 = 0) := by
  refine ⟨by decide, by decide, rfl, rfl, rfl⟩

/-- C5 (amended): for a matched convolutional head the transfer never
raises — whatever the kernel-size or head-size mismatch, and in either
transfer mode (the conv branch never consults `transfer_mode`; the
unimplemented-RP `TODO` branch, lines 1759-1772, silently falls back to a
truncated ordered copy with a nearest-interpolated depthwise kernel). -/
theorem C5_amended_conv_mismatch_never_raises (ctx : HetHeadCtx) (j convC : Nat)
    (tl : HetLayerParams) (ck sk : Nat)
    (hck : pyStrToNat? (ctx.tHeads.getD j default).sim = some ck)
    (hsk : pyStrToNat? (ctx.sHeads.getD j default).sim = some sk) :
    (hetConvStep ctx j convC tl).2 = none ∧
    (∀ mode' : String,
      hetConvStep { ctx with mode := mode' } j convC tl = hetConvStep ctx j convC tl) := by
  constructor
  · simp only [hetConvStep, pyInt, hck, hsk]
  · intro mode'
    rfl

/-- Witness for C5's amended statement at the layer-0 context of the
`hetT5`/`hetS5` transfer. -/
theorem C5_amended_witness :
    (pyStrToNat? (((hetMkCtx "RP" false rpId [] (hetT5.cfg.layers.getD 0 default)
          (hetS5.cfg.layers.getD 0 default)
          (hetS5.layers.getD 0 default)).tHeads.getD 0 default).sim) = some 3 ∧
      (pyStrToNat? (((hetMkCtx "RP" false rpId [] (hetT5.cfg.layers.getD 0 default)
          (hetS5.cfg.layers.getD 0 default)
          (hetS5.layers.getD 0 default)).sHeads.getD 0 default).sim) = some 5)) ∧
    (hetConvStep (hetMkCtx "RP" false rpId [] (hetT5.cfg.layers.getD 0 default)
      (hetS5.cfg.layers.getD 0 default) (hetS5.layers.getD 0 default)) 0 0
      (hetT5.layers.getD 0 default)).2 = none :=
  ⟨⟨by decide, by decide⟩,
    (C5_amended_conv_mismatch_never_raises
      (hetMkCtx "RP" false rpId [] (hetT5.cfg.layers.getD 0 default)
        (hetS5.cfg.layers.getD 0 default) (hetS5.layers.getD 0 default)) 0 0
      (hetT5.layers.getD 0 default) 3 5 (by decide) (by decide)).1⟩

/-- C6 counterexample: transfer between the identically configured
`hetT6`/`hetS6` (one `sa_wma_4` head) completes, after which the target's
`W0` attribute is the very `Parameter` object of the source's `W0`
(heap reference 1, not the target's original reference 0); an in-place
write through the target's parameter is then visible through the
source's parameter (its read changes from 5 to 9). -/
theorem C6_counterexample :
    (load_model_from_source_het "OD" false rpId heap6 hetT6 hetS6).2.2 = none ∧
    ((load_model_from_source_het "OD" false rpId heap6 hetT6 hetS6).1.layers.getD 0
        default).selfAttn.wRefs.getD 0 0 =
      (hetS6.layers.getD 0 default).selfAttn.wRefs.getD 0 0 ∧
    (hetT6.layers.getD 0 default).selfAttn.wRefs.getD 0 0 ≠
      (hetS6.layers.getD 0 default).selfAttn.wRefs.getD 0 0 ∧
    heapRead
      (heapWrite heap6
        (((load_model_from_source_het "OD" false rpId heap6 hetT6 hetS6).1.layers.getD 0
          default).selfAttn.wRefs.getD 0 0) (constMat 9))
      ((hetS6.layers.getD 0 default).selfAttn.wRefs.getD 0 0) 0 0 = 9 ∧
    heapRead heap6 ((hetS6.layers.getD 0 default).selfAttn.wRefs.getD 0 0) 0 0 = 5 := by
  refine ⟨rfl, by decide, by decide, rfl, rfl⟩

/-- C6 (amended): the transfer call itself never writes any `W` heap
cell (the modelled source parameters are read-only throughout), but for a
matched bilinear head with equal head sizes the `setattr` of line 1728
makes the target's `W{wma_count}` attribute reference the source's
`Parameter` object, so a subsequent in-place write through the target's
parameter is visible through the source's. -/
theorem C6_amended_w_aliasing (ctx : HetHeadCtx) (wmaC : Nat) (tl : HetLayerParams)
    (heq : ctx.ahs = ctx.sAhs) (hlen : wmaC < tl.selfAttn.wRefs.length)
    (hp : WHeap) (m : Mat) :
    (hetWmaStep ctx wmaC tl).2 = none ∧
    ((hetWmaStep ctx wmaC tl).1.1.selfAttn.wRefs.getD wmaC 0 =
      ctx.sl.selfAttn.wRefs.getD wmaC 0) ∧
    heapRead
        (heapWrite hp ((hetWmaStep ctx wmaC tl).1.1.selfAttn.wRefs.getD wmaC 0) m)
        (ctx.sl.selfAttn.wRefs.getD wmaC 0) =
      heapRead (heapWrite hp (ctx.sl.selfAttn.wRefs.getD wmaC 0) m)
        (ctx.sl.selfAttn.wRefs.getD wmaC 0) := by
  have h2 : (hetWmaStep ctx wmaC tl).1.1.selfAttn.wRefs.getD wmaC 0 =
      ctx.sl.selfAttn.wRefs.getD wmaC 0 := by
    simp only [hetWmaStep, if_pos heq]
    rw [List.getD_eq_getElem?_getD, List.getElem?_set_eq_of_lt _ hlen]
    rfl
  exact ⟨by simp [hetWmaStep, heq], h2, by rw [h2]⟩

/-- Witness for C6's amended statement at the `hetT6`/`hetS6` layer-0
context. -/
theorem C6_amended_witness :
    ((hetMkCtx "OD" false rpId heap6 (hetT6.cfg.layers.getD 0 default)
        (hetS6.cfg.layers.getD 0 default) (hetS6.layers.getD 0 default)).ahs =
      (hetMkCtx "OD" false rpId heap6 (hetT6.cfg.layers.getD 0 default)
        (hetS6.cfg.layers.getD 0 default) (hetS6.layers.getD 0 default)).sAhs ∧
      0 < (hetT6.layers.getD 0 default).selfAttn.wRefs.length) ∧
    (hetWmaStep (hetMkCtx "OD" false rpId heap6 (hetT6.cfg.layers.getD 0 default)
      (hetS6.cfg.layers.getD 0 default) (hetS6.layers.getD 0 default)) 0
      (hetT6.layers.getD 0 default)).1.1.selfAttn.wRefs.getD 0 0 =
      (hetMkCtx "OD" false rpId heap6 (hetT6.cfg.layers.getD 0 default)
        (hetS6.cfg.layers.getD 0 default)
        (hetS6.layers.getD 0 default)).sl.selfAttn.wRefs.getD 0 0 :=
  ⟨⟨by decide, by decide⟩,
    (C6_amended_w_aliasing (hetMkCtx "OD" false rpId heap6
        (hetT6.cfg.layers.getD 0 default) (hetS6.cfg.layers.getD 0 default)
        (hetS6.layers.getD 0 default)) 0 (hetT6.layers.getD 0 default)
      (by decide) (by decide) heap6 (constMat 9)).2.1⟩

end ModularBert
